import Mathlib

/-!
Shallow embedding of `enedis_data_connect/enedis_client.py` (classes
`EnedisClient` and `EnedisApiHelper`).

Modelling conventions:
* Python `str` is Lean `String` where the code only compares/concatenates,
  and `List Char` where the constructor validates character-by-character.
* Python `bytes` is `List Nat` (each element a byte value `< 256`).
* Python `dict` is an association list with insertion-order/overwrite
  semantics (`dictInsertS` / `dictInsert`), matching `d[k] = v`.
* `datetime.date` / `datetime.datetime` keys are `Nat` ordinals; the
  `strptime` parses in `_process_data` (format `%Y-%m-%d %H:%M:%S`) and
  `_process_daily_data` (format `%Y-%m-%d`) are modelled as already
  performed, so an `interval_reading` entry carries the parsed timestamp
  directly; `int(value)` is likewise modelled post-conversion.
* The HTTP transport (`requests`) is an environment: each dispatched send
  yields either a raised exception or a response with a status code and an
  already-JSON-decoded body.
* Exceptions are the explicit `Except`/`Option PyError` results.
-/

namespace Enedis

/-- Python exception values that the client raises or captures. -/
inductive PyError where
  | invalidPrm : PyError
  | invalidUrl : PyError
  | invalidClientId : PyError
  | invalidClientSecret : PyError
  | invalidAccess : PyError
  | apiRequestError : Option PyError → PyError
  | keyError : String → PyError
  | valueError : String → PyError
  | transportError : Nat → PyError

/-- String-keyed dictionary (Python `dict[str, str]`-like association list). -/
abbrev SDict := List (String × String)

/-- `d[k] = v` on a string-keyed dict: overwrite in place or append. -/
def dictInsertS (d : SDict) (k v : String) : SDict :=
  if d.any (fun p => p.1 = k) then
    d.map (fun p => if p.1 = k then (k, v) else p)
  else
    d ++ [(k, v)]

/-- `d[k]` lookup on a string-keyed dict (`none` models a missing key). -/
def dlookup (d : SDict) (k : String) : Option String :=
  (d.find? (fun p => p.1 = k)).map (fun p => p.2)

/-- Membership test `k in d` on a string-keyed dict. -/
def dcontains (d : SDict) (k : String) : Bool :=
  d.any (fun p => p.1 = k)

/-- Result dictionary of the reshaping functions: timestamp ordinal to
integer value, with Python-dict insertion semantics. -/
abbrev NDict := List (Nat × Int)

/-- `result[k] = v` on a timestamp-keyed dict: overwrite in place or append. -/
def dictInsert (m : NDict) (k : Nat) (v : Int) : NDict :=
  if m.any (fun p => p.1 = k) then
    m.map (fun p => if p.1 = k then (k, v) else p)
  else
    m ++ [(k, v)]

/-- Membership test `k in result` on a timestamp-keyed dict. -/
def ncontains (m : NDict) (k : Nat) : Bool :=
  m.any (fun p => p.1 = k)

/-- `result[k]` lookup on a timestamp-keyed dict. -/
def nlookup (m : NDict) (k : Nat) : Option Int :=
  (m.find? (fun p => p.1 = k)).map (fun p => p.2)

/-- Key list of a timestamp-keyed dict. -/
def nkeys (m : NDict) : List Nat :=
  m.map (fun p => p.1)

/-- One element of the `interval_reading` list of the API payload.
`date`/`value` are `none` exactly when the corresponding JSON key is
absent; when present they carry the parsed timestamp and integer. -/
structure IntervalEntry where
  date : Option Nat
  value : Option Int
  deriving Repr, DecidableEq

/-- The `meter_reading` JSON object; `interval_reading` is `none` when the
key is absent. -/
structure MeterReading where
  interval_reading : Option (List IntervalEntry)
  deriving Repr, DecidableEq

/-- The decoded top-level API payload; `meter_reading` is `none` when the
key is absent (an empty Python dict behaves the same way, since the code
first tests `if data` for truthiness and then key membership). -/
structure ApiData where
  meter_reading : Option MeterReading
  deriving Repr, DecidableEq

/-- Body of the extraction loop: `if _DATE_KEY in interval and _VALUE_KEY
in interval: result[parsed date] = int(value)`; an entry missing either
key is skipped. -/
def insertEntry (acc : NDict) (interval : IntervalEntry) : NDict :=
  match interval.date, interval.value with
  | some d, some v => dictInsert acc d v
  | _, _ => acc

/-- The shared extraction loop of `_process_data` and
`_process_daily_data`: walk `meter_reading.interval_reading`, keep the
entries that have both a `date` and a `value` key, and insert each into the
result dict (later duplicates overwrite earlier ones). The top-level
`data` is `none` for a JSON `null` payload. -/
def reshapeIntervals (data : Option ApiData) : NDict :=
  match data with
  | none => []
  | some ad =>
    match ad.meter_reading with
    | none => []
    | some mr =>
      match mr.interval_reading with
      | none => []
      | some intervals => intervals.foldl insertEntry []

/-- `EnedisApiHelper._process_data`: reshape a payload into a
datetime-indexed dict (timestamps parsed with `%Y-%m-%d %H:%M:%S`). -/
def _process_data (data : Option ApiData) : NDict :=
  reshapeIntervals data

/-- The gap-filling loop of `_process_daily_data`:
`d = start; while d < end: if d not in result: result[d] = 0; d += 1`.
The fuel argument is the number of remaining days, `end - start`. -/
def gapFill (m : NDict) (d : Nat) : Nat → NDict
  | 0 => m
  | n + 1 => gapFill (if ncontains m d then m else dictInsert m d 0) (d + 1) n

/-- `EnedisApiHelper._process_daily_data`: reshape a payload into a
date-indexed dict (dates parsed with `%Y-%m-%d`), then default every day
of `[start_date, end_date)` that is still absent to `0`. -/
def _process_daily_data (start_date end_date : Nat) (data : Option ApiData) : NDict :=
  gapFill (reshapeIntervals data) start_date (end_date - start_date)

/-- `EnedisApiHelper._assert_input`. A `datetime.date` object is always
truthy in Python, so `if not start_date` fires exactly when the argument
is `None`, modelled by `Option Nat`. -/
def _assert_input (start_date end_date : Option Nat) : Except PyError Unit :=
  match start_date with
  | none => .error (.valueError "Start date is not valid")
  | some s =>
    match end_date with
    | none => .error (.valueError "End date is not valid")
    | some e =>
      if s > e then .error (.valueError "End date must be greater than start date")
      else .ok ()

/-- Mutable state of an `EnedisClient` instance (`_token_data`,
`_request_count`, `_errors_count`, plus the immutable credential fields
used by `close`/`connect`). `_token_data` is `none` for Python `None`;
a present value is the decoded token JSON as a string dict. -/
structure ClientState where
  token_data : Option SDict
  request_count : Nat
  errors_count : Nat
  client_id : String
  client_secret : List Nat
  deriving Repr

/-- `EnedisClient.is_connected`: token data is not `None` and is a
non-empty dict. -/
def is_connected (st : ClientState) : Bool :=
  match st.token_data with
  | none => false
  | some td => !td.isEmpty

/-- `EnedisClient._get_headers`. Starts from the caller's headers (Python
`None` and the empty dict both yield a fresh empty dict, so both are
modelled by `[]`). When `_token_data` is truthy (present and non-empty)
the code reads `token_data['token_type']` and `token_data['access_token']`
unconditionally, so a missing key raises `KeyError`; when both values are
non-empty strings an `Authorization: {token_type} {access_token}` entry is
set. Finally `Accept: application/json` is added unless already present. -/
def _get_headers (token_data : Option SDict) (headers : SDict) : Except PyError SDict :=
  let result := headers
  let withAccept := fun (r : SDict) =>
    if dcontains r "Accept" then r else dictInsertS r "Accept" "application/json"
  match token_data with
  | none => .ok (withAccept result)
  | some td =>
    if td.isEmpty then .ok (withAccept result)
    else
      match dlookup td "token_type" with
      | none => .error (.keyError "token_type")
      | some token_type =>
        match dlookup td "access_token" with
        | none => .error (.keyError "access_token")
        | some token =>
          let result :=
            if token_type ≠ "" ∧ token ≠ "" then
              dictInsertS result "Authorization" (token_type ++ " " ++ token)
            else result
          .ok (withAccept result)

/-- Outcome of one `http_session.send(prepared_req)` dispatch: either the
transport raises, or a response arrives with a status code and an
already-JSON-decoded body (used only on status 200). -/
inductive SendOutcome (β : Type) where
  | exn : PyError → SendOutcome β
  | resp : Nat → β → SendOutcome β

/-- Environment of one retry attempt of `get_data` /
`post_data_with_result` / `post_data_without_result`: the outcome of the
attempt's own send, plus the send outcomes feeding a `connect()` call
triggered at the top of the loop (`connTop`) or in the 401 branch
(`conn401`), if one happens. -/
structure Attempt (β : Type) where
  connTop : Nat → SendOutcome SDict
  send : SendOutcome β
  conn401 : Nat → SendOutcome SDict

/-- The retry loop of `post_data_with_result` when called with
`auto_connect=False` (the shape `connect()` uses for the token exchange):
up to `fuel` attempts; a 401 or any other non-200 status raises
`InvalidAccess` which the attempt's broad `except` captures; a 200 returns
the decoded body; exhaustion increments the error counter and raises
`ApiRequestError` wrapping the last captured exception. -/
def connLoop (env : Nat → SendOutcome SDict) (st : ClientState) (i : Nat)
    (lastExn : Option PyError) : Nat → Except PyError SDict × ClientState
  | 0 => (.error (.apiRequestError lastExn), { st with errors_count := st.errors_count + 1 })
  | fuel + 1 =>
    match env i with
    | .exn e => connLoop env st (i + 1) (some e) fuel
    | .resp status body =>
      if status = 200 then (.ok body, st)
      else connLoop env st (i + 1) (some .invalidAccess) fuel

/-- `EnedisClient.connect`: no-op when already connected; otherwise one
`post_data_with_result(token_url, ..., auto_connect=False)` call (which
increments the request counter once at entry) whose decoded JSON becomes
the new token data. A raised error propagates (first component `some e`)
but the counter updates performed so far persist. When `connect` runs the
token data is `None` or empty, so the inner header computation cannot
raise. -/
def connect (st : ClientState) (env : Nat → SendOutcome SDict) :
    Option PyError × ClientState :=
  if is_connected st then (none, st)
  else
    match connLoop env { st with request_count := st.request_count + 1 } 0 none 3 with
    | (.ok td, st') => (none, { st' with token_data := some td })
    | (.error e, st') => (some e, st')

/-- The shared retry loop of `get_data`, `post_data_with_result` and
`post_data_without_result`. `mkHeaders` recomputes the dispatched headers
from the token data current at the attempt: `get_data` builds its request
inside the loop (so it passes the real `_get_headers`), while both POST
operations prepare the request once before the loop (so they pass a
constant). The returned trace lists the headers of every send actually
dispatched. Loop body, per attempt: (a) if `auto_connect` and not
connected, `connect()` — outside the `try`, so a failure there propagates
uncaught; (b) compute/reuse headers — for `get_data` a `KeyError` here
also propagates uncaught; (c) send; 401 with auto-connect clears the token
and re-authenticates inside the `try` (a `connect` failure is captured and
the loop continues), 401 without auto-connect raises `InvalidAccess` which
the broad `except` immediately captures, 200 returns, any other status
raises a captured `InvalidAccess`, a transport exception is captured;
(d) on exhaustion increment the error counter and raise `ApiRequestError`
wrapping the last captured exception. -/
def requestLoop {β : Type} (env : Nat → Attempt β) (auto_connect : Bool)
    (mkHeaders : Option SDict → Except PyError SDict) (st : ClientState) (i : Nat)
    (lastExn : Option PyError) (trace : List SDict) :
    Nat → Except PyError β × ClientState × List SDict
  | 0 => (.error (.apiRequestError lastExn),
          { st with errors_count := st.errors_count + 1 }, trace)
  | fuel + 1 =>
    let a := env i
    let connStep : Option PyError × ClientState :=
      if auto_connect ∧ ¬ is_connected st then connect st a.connTop else (none, st)
    match connStep with
    | (some e, st1) => (.error e, st1, trace)
    | (none, st1) =>
      match mkHeaders st1.token_data with
      | .error e => (.error e, st1, trace)
      | .ok h =>
        let trace := trace ++ [h]
        match a.send with
        | .exn e => requestLoop env auto_connect mkHeaders st1 (i + 1) (some e) trace fuel
        | .resp status body =>
          if status = 401 then
            if auto_connect then
              match connect { st1 with token_data := none } a.conn401 with
              | (some e, st3) =>
                requestLoop env auto_connect mkHeaders st3 (i + 1) (some e) trace fuel
              | (none, st3) =>
                requestLoop env auto_connect mkHeaders st3 (i + 1) lastExn trace fuel
            else
              requestLoop env auto_connect mkHeaders st1 (i + 1) (some .invalidAccess) trace fuel
          else if status = 200 then (.ok body, st1, trace)
          else requestLoop env auto_connect mkHeaders st1 (i + 1) (some .invalidAccess) trace fuel

/-- `EnedisClient.get_data`: increments the request counter once at entry,
then runs the retry loop; the request (hence its headers) is rebuilt on
every attempt from the token data current at that attempt. -/
def get_data {β : Type} (st : ClientState) (headers : SDict) (auto_connect : Bool)
    (env : Nat → Attempt β) : Except PyError β × ClientState × List SDict :=
  requestLoop env auto_connect (fun td => _get_headers td headers)
    { st with request_count := st.request_count + 1 } 0 none [] 3

/-- `EnedisClient.post_data_with_result`: the request is prepared once,
before the loop and before the request counter increment, from the token
data at call entry; every retry re-sends that same prepared request. -/
def post_data_with_result {β : Type} (st : ClientState) (headers : SDict)
    (auto_connect : Bool) (env : Nat → Attempt β) :
    Except PyError β × ClientState × List SDict :=
  match _get_headers st.token_data headers with
  | .error e => (.error e, st, [])
  | .ok h0 =>
    requestLoop env auto_connect (fun _ => .ok h0)
      { st with request_count := st.request_count + 1 } 0 none [] 3

/-- `EnedisClient.post_data_without_result`: identical to
`post_data_with_result` except that a 200 response returns no value. -/
def post_data_without_result {β : Type} (st : ClientState) (headers : SDict)
    (auto_connect : Bool) (env : Nat → Attempt β) :
    Except PyError Unit × ClientState × List SDict :=
  match post_data_with_result st headers auto_connect env with
  | (.ok _, st', tr) => (.ok (), st', tr)
  | (.error e, st', tr) => (.error e, st', tr)

/-- `base64.b64encode` on a byte list, at the granularity of 6-bit output
symbols: values `0..63` stand for the alphabet characters through the
standard (bijective) RFC 4648 table, and `64` stands for the `=` padding
character. -/
def b64encode : List Nat → List Nat
  | [] => []
  | [a] => [a / 4, a % 4 * 16, 64, 64]
  | [a, b] => [a / 4, a % 4 * 16 + b / 16, b % 16 * 4, 64]
  | a :: b :: c :: rest =>
    a / 4 :: (a % 4 * 16 + b / 16) :: (b % 16 * 4 + c / 64) :: c % 64 :: b64encode rest

/-- `base64.b64decode` on the same symbol representation: consume four
symbols per block, reassembling three bytes, two bytes (one trailing `=`)
or one byte (two trailing `=`). Inputs that are not valid encodings raise
in Python; the model returns on the valid encodings produced by
`b64encode`, which is all the round-trip property needs. -/
def b64decode : List Nat → List Nat
  | w :: x :: y :: z :: rest =>
    if y = 64 then [w * 4 + x / 16]
    else if z = 64 then [w * 4 + x / 16, x % 16 * 16 + y / 4]
    else (w * 4 + x / 16) :: (x % 16 * 16 + y / 4) :: (y % 4 * 64 + z) :: b64decode rest
  | _ => []

/-- The constructor's storing of the secret:
`self._client_secret = base64.b64encode(client_secret.encode('utf-8'))`,
modelled at the byte level (the argument is the UTF-8 byte sequence of the
secret string). -/
def storeClientSecret (secret : List Nat) : List Nat :=
  b64encode secret

/-- `EnedisClient._get_client_secret`: base64-decode the stored secret
(and decode the bytes back to a string; modelled at the byte level). The
stored field is never `None` on a constructed client, so the `None` guard
of the source is not reachable in the model. -/
def _get_client_secret (st : ClientState) : List Nat :=
  b64decode st.client_secret

/-- Python `\d` on one character (ASCII digits; the counterexamples and
witnesses below only use ASCII). -/
def isDigitChar (c : Char) : Bool :=
  c.isDigit

/-- `re.match("\d{14}", s)`: an (unanchored-at-the-end) match succeeds
exactly when the string has at least 14 characters and its first 14
characters are digits. -/
def prmRegexMatches (s : List Char) : Bool :=
  decide (14 ≤ s.length) && (s.take 14).all isDigitChar

/-- Whether a character run contains no newline (`.` never matches a
newline in Python's default mode). -/
def noNewline (t : List Char) : Bool :=
  t.all (fun c => c ≠ '\n')

/-- The `.*$` part of the redirect-URI pattern applied to the rest of the
string: `$` matches at the very end or just before one trailing
newline. -/
def restMatchesDotStar (t : List Char) : Bool :=
  if t.getLast? = some '\n' then noNewline t.dropLast else noNewline t

/-- `re.match('^(http|https):.*$', s)`: the alternation resolves to the
string starting with `http:` or `https:`, followed by a newline-free run
reaching the end (or the position before one trailing newline). -/
def urlRegexMatches (s : List Char) : Bool :=
  ("http:".toList.isPrefixOf s && restMatchesDotStar (s.drop 5)) ||
  ("https:".toList.isPrefixOf s && restMatchesDotStar (s.drop 6))

/-- The validation sequence of `EnedisClient.__init__`, in source order:
both PRMs `None`; a present PRM failing `re.match("\d{14}", ...)`; a
`None` redirect URI or one failing `re.match('^(http|https):.*$', ...)`;
a `None` client id or one of length `<= 0` or `> 128`; likewise for the
client secret. The first failing check raises; otherwise the fields are
stored and construction succeeds (no network I/O happens anywhere in the
constructor). -/
def initChecks (consumption_prm production_prm client_id client_secret redirect_uri :
    Option (List Char)) : Except PyError Unit :=
  if consumption_prm.isNone && production_prm.isNone then .error .invalidPrm
  else if (match consumption_prm with
           | some p => !prmRegexMatches p
           | none => false) then .error .invalidPrm
  else if (match production_prm with
           | some p => !prmRegexMatches p
           | none => false) then .error .invalidPrm
  else if (match redirect_uri with
           | none => true
           | some u => !urlRegexMatches u) then .error .invalidUrl
  else if (match client_id with
           | none => true
           | some c => decide (c.length = 0) || decide (128 < c.length)) then
    .error .invalidClientId
  else if (match client_secret with
           | none => true
           | some c => decide (c.length = 0) || decide (128 < c.length)) then
    .error .invalidClientSecret
  else .ok ()

/-- The form body `close()` hands to the revoke endpoint: `client_id`,
the decoded `client_secret` and the current access token. -/
structure RevokeRequest where
  client_id : String
  client_secret : List Nat
  token : String
  deriving Repr, DecidableEq

/-- Connect-environment placeholder for calls made with
`auto_connect=False`, where no `connect()` can ever run. -/
def noConnectEnv : Nat → SendOutcome SDict :=
  fun _ => .exn (.transportError 0)

/-- `EnedisClient.close`: no-op when not connected. Otherwise the revoke
body is built first — reading `token_data['access_token']` outside any
`try`, so a missing key raises `KeyError` and nothing is cleared — and
then `post_data_without_result(revoke_url, ..., auto_connect=False)` runs
inside a `try` whose broad `except` swallows every failure; the token
data is set to `None` afterwards in both the success and the failure
case. Returns the propagated exception (if any), the final state, and the
revoke body sent (if any). -/
def close (st : ClientState) (env : Nat → SendOutcome Unit) :
    Option PyError × ClientState × Option RevokeRequest :=
  match st.token_data with
  | none => (none, st, none)
  | some td =>
    if td.isEmpty then (none, st, none)
    else
      match dlookup td "access_token" with
      | none => (some (.keyError "access_token"), st, none)
      | some tok =>
        let req : RevokeRequest :=
          { client_id := st.client_id, client_secret := _get_client_secret st, token := tok }
        let res := post_data_without_result st
          [("Content-Type", "application/x-www-form-urlencoded")] false
          (fun i => { connTop := noConnectEnv, send := env i, conn401 := noConnectEnv })
        (none, { res.2.1 with token_data := none }, some req)

/-- The shared shape of `get_daily_consumption` and `get_daily_production`
(they differ only in the URL path and in which PRM fills the query
parameters, neither of which influences the environment-driven transport
model): validate the dates, perform one `get_data` call (default
`auto_connect=True`), and reshape with `_process_daily_data`. The third
component counts the `get_data` calls performed. -/
def dailyReportOp (st : ClientState) (env : Nat → Attempt (Option ApiData))
    (start_date end_date : Option Nat) :
    Except PyError NDict × ClientState × Nat :=
  match _assert_input start_date end_date with
  | .error e => (.error e, st, 0)
  | .ok () =>
    match start_date, end_date with
    | some s, some e2 =>
      match get_data st [] true env with
      | (.ok data, st', _) => (.ok (_process_daily_data s e2 data), st', 1)
      | (.error er, st', _) => (.error er, st', 1)
    | _, _ =>
      -- dead branch: `_assert_input` only succeeds on two present dates
      (.error (.valueError "unreachable"), st, 0)

/-- `EnedisApiHelper.get_daily_consumption`. -/
def get_daily_consumption (st : ClientState) (env : Nat → Attempt (Option ApiData))
    (start_date end_date : Option Nat) :
    Except PyError NDict × ClientState × Nat :=
  dailyReportOp st env start_date end_date

/-- `EnedisApiHelper.get_daily_production`. -/
def get_daily_production (st : ClientState) (env : Nat → Attempt (Option ApiData))
    (start_date end_date : Option Nat) :
    Except PyError NDict × ClientState × Nat :=
  dailyReportOp st env start_date end_date

/-- The shared shape of `get_max_daily_consumed_power`,
`get_consumption_load_curve` and `get_production_load_curve`: validate the
dates, perform one `get_data` call, and reshape with `_process_data` (no
gap-filling). -/
def curveReportOp (st : ClientState) (env : Nat → Attempt (Option ApiData))
    (start_date end_date : Option Nat) :
    Except PyError NDict × ClientState × Nat :=
  match _assert_input start_date end_date with
  | .error e => (.error e, st, 0)
  | .ok () =>
    match get_data st [] true env with
    | (.ok data, st', _) => (.ok (_process_data data), st', 1)
    | (.error er, st', _) => (.error er, st', 1)

/-- `EnedisApiHelper.get_max_daily_consumed_power`. -/
def get_max_daily_consumed_power (st : ClientState) (env : Nat → Attempt (Option ApiData))
    (start_date end_date : Option Nat) :
    Except PyError NDict × ClientState × Nat :=
  curveReportOp st env start_date end_date

/-- `EnedisApiHelper.get_consumption_load_curve`. -/
def get_consumption_load_curve (st : ClientState) (env : Nat → Attempt (Option ApiData))
    (start_date end_date : Option Nat) :
    Except PyError NDict × ClientState × Nat :=
  curveReportOp st env start_date end_date

/-- `EnedisApiHelper.get_production_load_curve`. -/
def get_production_load_curve (st : ClientState) (env : Nat → Attempt (Option ApiData))
    (start_date end_date : Option Nat) :
    Except PyError NDict × ClientState × Nat :=
  curveReportOp st env start_date end_date

/-! Derived notions used to state the claims (not part of the source). -/

/-- An `interval_reading` entry carrying both a `date` and a `value` key. -/
def completeEntry (iv : IntervalEntry) : Bool :=
  iv.date.isSome && iv.value.isSome

/-- The `interval_reading` list of a payload (empty when the payload is
`null` or a key along the path is missing). -/
def intervalsOf (data : Option ApiData) : List IntervalEntry :=
  match data with
  | some { meter_reading := some { interval_reading := some l } } => l
  | _ => []

/-- The dates carried by the payload's `interval_reading` entries. -/
def payloadDates (data : Option ApiData) : List Nat :=
  (intervalsOf data).filterMap (fun iv => iv.date)

/-- A payload with all keys along the path present and the given
`interval_reading` list. -/
def mkPayload (l : List IntervalEntry) : Option ApiData :=
  some { meter_reading := some { interval_reading := some l } }

/-- The exception the broad `except` of a retry attempt captures for a
given send outcome, on the paths where one is captured: the transport
exception itself, or the `InvalidAccess` raised on a non-200 status. -/
def capturedExn {β : Type} : SendOutcome β → PyError
  | .exn e => e
  | .resp _ _ => .invalidAccess

/-- A send outcome that makes its attempt fail with a captured exception:
a transport exception, or a status that is neither 200 nor (when
auto-connect is on) 401. -/
def failingSend {β : Type} (auto_connect : Bool) : SendOutcome β → Prop
  | .exn _ => True
  | .resp status _ => status ≠ 200 ∧ (auto_connect = true → status ≠ 401)

/-- A send outcome that is not an HTTP 401 response (so it can never
trigger a re-authentication). -/
def non401Send {β : Type} : SendOutcome β → Prop
  | .resp 401 _ => False
  | _ => True

/-- The exception recorded after exhausting `fuel` all-failing attempts
starting at attempt `i`: the one captured from the last attempt, or the
incoming record when no attempt ran. -/
def lastExnAfter {β : Type} (env : Nat → Attempt β) (lastExn : Option PyError)
    (i fuel : Nat) : Option PyError :=
  match fuel with
  | 0 => lastExn
  | n + 1 => some (capturedExn (env (i + n)).send)

/-- Same as `lastExnAfter`, for a bare send environment (the shape fed to
the inner token exchange of `connect`). -/
def lastSendExnAfter (cenv : Nat → SendOutcome SDict) (lastExn : Option PyError)
    (i fuel : Nat) : Option PyError :=
  match fuel with
  | 0 => lastExn
  | n + 1 => some (capturedExn (cenv (i + n)))

/-! Concrete fixtures for counterexamples and witnesses. -/

/-- A well-formed token dict with the given access token. -/
def mkToken (s : String) : SDict :=
  [("token_type", "Bearer"), ("access_token", s)]

/-- A connected client holding token `OLD`. -/
def exampleConnected : ClientState :=
  { token_data := some (mkToken "OLD"), request_count := 0, errors_count := 0,
    client_id := "client-1", client_secret := storeClientSecret [1, 2, 3] }

/-- The same client before any authentication. -/
def exampleDisconnected : ClientState :=
  { exampleConnected with token_data := none }

/-- A payload whose single reading is dated day 20. -/
def examplePayload : Option ApiData :=
  some { meter_reading := some { interval_reading := some [⟨some 20, some 5⟩] } }

/-- Transport environment answering every attempt with status 200 and the
given payload. -/
def envAlwaysOk (p : Option ApiData) : Nat → Attempt (Option ApiData) :=
  fun _ => { connTop := noConnectEnv, send := .resp 200 p, conn401 := noConnectEnv }

/-- Transport environment: first send yields 401, every later one 200. -/
def env401then200 : Nat → Attempt Nat :=
  fun i =>
    { connTop := noConnectEnv,
      send := if i = 0 then .resp 401 0 else .resp 200 42,
      conn401 := noConnectEnv }

/-- Transport environment: every send yields 401. -/
def envAll401 : Nat → Attempt Nat :=
  fun _ => { connTop := noConnectEnv, send := .resp 401 0, conn401 := noConnectEnv }

/-- Transport environment for a disconnected client: the initial
`connect()` succeeds with a fresh token, then every send yields 200. -/
def envConnectThen200 : Nat → Attempt Nat :=
  fun _ =>
    { connTop := fun _ => .resp 200 (mkToken "NEW"), send := .resp 200 7,
      conn401 := noConnectEnv }

/-- Transport environment: first send yields 401, the 401-triggered
re-authentication succeeds with token `NEW`, and the next send yields
200. -/
def envReauthThen200 : Nat → Attempt Nat :=
  fun i =>
    { connTop := noConnectEnv,
      send := if i = 0 then .resp 401 0 else .resp 200 9,
      conn401 := fun _ => .resp 200 (mkToken "NEW") }

/-- Revoke environment whose every send raises a transport exception. -/
def envRevokeFailing : Nat → SendOutcome Unit :=
  fun _ => .exn (.transportError 5)

/-- Transport environment whose every send raises a transport exception. -/
def envAllExn : Nat → Attempt Nat :=
  fun _ => { connTop := noConnectEnv, send := .exn (.transportError 7),
             conn401 := noConnectEnv }

/-- Transport environment for a connected client in which all three retry
attempts complete without a 200: the first send yields 401 and the
401-triggered re-authentication exhausts its own budget on 500 responses;
the loop-top reconnection of the second attempt succeeds, and the second
and third sends yield 500. -/
def envNestedExhaust : Nat → Attempt Nat :=
  fun i =>
    if i = 0 then
      { connTop := noConnectEnv, send := .resp 401 0, conn401 := fun _ => .resp 500 [] }
    else
      { connTop := fun _ => .resp 200 (mkToken "NEW"), send := .resp 500 0,
        conn401 := noConnectEnv }

/-- The headers `_get_headers` builds for the `OLD` token and empty caller
headers. -/
def headersOld : SDict :=
  [("Authorization", "Bearer OLD"), ("Accept", "application/json")]

/-- The headers `_get_headers` builds for the `NEW` token and empty caller
headers. -/
def headersNew : SDict :=
  [("Authorization", "Bearer NEW"), ("Accept", "application/json")]

/-! ## Dictionary lemmas -/

theorem mem_nkeys {m : NDict} {k : Nat} : k ∈ nkeys m ↔ ∃ p ∈ m, p.1 = k := by
  simp [nkeys, List.mem_map]

theorem ncontains_iff {m : NDict} {k : Nat} : ncontains m k = true ↔ k ∈ nkeys m := by
  rw [mem_nkeys]
  simp [ncontains, List.any_eq_true]

theorem nkeys_dictInsert_of_contains {m : NDict} {k : Nat} (v : Int)
    (h : ncontains m k = true) : nkeys (dictInsert m k v) = nkeys m := by
  unfold dictInsert
  rw [show (m.any fun p => p.1 = k) = true from h]
  simp only [if_true, nkeys, List.map_map]
  refine List.map_congr_left (fun p _ => ?_)
  by_cases hp : p.1 = k <;> simp [hp]

theorem nkeys_dictInsert_of_not_contains {m : NDict} {k : Nat} (v : Int)
    (h : ncontains m k = false) : nkeys (dictInsert m k v) = nkeys m ++ [k] := by
  unfold dictInsert
  rw [show (m.any fun p => p.1 = k) = false from h]
  simp [nkeys]

theorem mem_nkeys_dictInsert {m : NDict} {k a : Nat} {v : Int} :
    a ∈ nkeys (dictInsert m k v) ↔ a ∈ nkeys m ∨ a = k := by
  by_cases h : ncontains m k
  · rw [nkeys_dictInsert_of_contains v h]
    have hk : k ∈ nkeys m := ncontains_iff.mp h
    constructor
    · exact Or.inl
    · rintro (ha | rfl)
      · exact ha
      · exact hk
  · rw [nkeys_dictInsert_of_not_contains v (by simpa using h)]
    simp

theorem nodup_nkeys_dictInsert {m : NDict} {k : Nat} {v : Int}
    (h : (nkeys m).Nodup) : (nkeys (dictInsert m k v)).Nodup := by
  by_cases hc : ncontains m k
  · rwa [nkeys_dictInsert_of_contains v hc]
  · rw [nkeys_dictInsert_of_not_contains v (by simpa using hc)]
    have hk : k ∉ nkeys m := fun hmem => hc (ncontains_iff.mpr hmem)
    simp [List.nodup_append, h, hk]

theorem find?_key_eq_none {m : NDict} {k : Nat} (h : k ∉ nkeys m) :
    m.find? (fun p => p.1 = k) = none := by
  rw [List.find?_eq_none]
  intro p hp
  simp only [decide_eq_true_eq]
  intro hk
  exact h (mem_nkeys.mpr ⟨p, hp, hk⟩)

theorem nlookup_eq_none {m : NDict} {k : Nat} (h : k ∉ nkeys m) : nlookup m k = none := by
  unfold nlookup
  rw [find?_key_eq_none h]
  rfl

theorem nlookup_append_of_mem {m l : NDict} {k : Nat} (h : k ∈ nkeys m) :
    nlookup (m ++ l) k = nlookup m k := by
  unfold nlookup
  rw [List.find?_append]
  obtain ⟨p, hp, hk⟩ := mem_nkeys.mp h
  have hsome : (m.find? fun p => p.1 = k).isSome := by
    rw [List.find?_isSome]
    exact ⟨p, hp, by simp [hk]⟩
  obtain ⟨q, hq⟩ := Option.isSome_iff_exists.mp hsome
  rw [hq]
  rfl

theorem nlookup_append_singleton_self {m : NDict} {k : Nat} {v : Int}
    (h : k ∉ nkeys m) : nlookup (m ++ [(k, v)]) k = some v := by
  unfold nlookup
  rw [List.find?_append, find?_key_eq_none h]
  simp

/-! ## Gap-filling lemmas -/

theorem mem_nkeys_gapFill :
    ∀ (n : Nat) (m : NDict) (d a : Nat),
      a ∈ nkeys (gapFill m d n) ↔ a ∈ nkeys m ∨ (d ≤ a ∧ a < d + n) := by
  intro n
  induction n with
  | zero =>
    intro m d a
    simp only [gapFill]
    constructor
    · exact Or.inl
    · rintro (h | ⟨h1, h2⟩)
      · exact h
      · omega
  | succ n ih =>
    intro m d a
    rw [gapFill, ih]
    by_cases hc : ncontains m d
    · have hd : d ∈ nkeys m := ncontains_iff.mp hc
      rw [if_pos hc]
      constructor
      · rintro (ha | hr)
        · exact Or.inl ha
        · by_cases had : a = d
          · exact Or.inl (had ▸ hd)
          · exact Or.inr ⟨by omega, by omega⟩
      · rintro (ha | hr)
        · exact Or.inl ha
        · by_cases had : a = d
          · exact Or.inl (had ▸ hd)
          · exact Or.inr ⟨by omega, by omega⟩
    · rw [if_neg hc]
      constructor
      · rintro (ha | hr)
        · rcases mem_nkeys_dictInsert.mp ha with ha' | rfl
          · exact Or.inl ha'
          · exact Or.inr ⟨le_refl _, by omega⟩
        · exact Or.inr ⟨by omega, by omega⟩
      · rintro (ha | hr)
        · exact Or.inl (mem_nkeys_dictInsert.mpr (Or.inl ha))
        · by_cases had : a = d
          · exact Or.inl (mem_nkeys_dictInsert.mpr (Or.inr had))
          · exact Or.inr ⟨by omega, by omega⟩

theorem nodup_nkeys_gapFill :
    ∀ (n : Nat) (m : NDict) (d : Nat), (nkeys m).Nodup → (nkeys (gapFill m d n)).Nodup := by
  intro n
  induction n with
  | zero => intro m d h; simpa [gapFill] using h
  | succ n ih =>
    intro m d h
    rw [gapFill]
    by_cases hc : ncontains m d
    · rw [if_pos hc]
      exact ih m (d + 1) h
    · rw [if_neg hc]
      exact ih _ (d + 1) (nodup_nkeys_dictInsert h)

theorem nlookup_gapFill_of_mem :
    ∀ (n : Nat) (m : NDict) (d a : Nat), a ∈ nkeys m →
      nlookup (gapFill m d n) a = nlookup m a := by
  intro n
  induction n with
  | zero => intro m d a _; simp [gapFill]
  | succ n ih =>
    intro m d a ha
    rw [gapFill]
    by_cases hc : ncontains m d
    · rw [if_pos hc]
      exact ih m (d + 1) a ha
    · rw [if_neg hc]
      have hins : dictInsert m d 0 = m ++ [(d, 0)] := by
        rw [dictInsert, if_neg (by simpa [ncontains] using hc)]
      rw [hins]
      have ha' : a ∈ nkeys (m ++ [(d, 0)]) := by
        rw [mem_nkeys]
        obtain ⟨p, hp, hpk⟩ := mem_nkeys.mp ha
        exact ⟨p, List.mem_append.mpr (Or.inl hp), hpk⟩
      rw [ih _ (d + 1) a ha']
      exact nlookup_append_of_mem ha

theorem nlookup_gapFill_zero_of_not_mem :
    ∀ (n : Nat) (m : NDict) (d a : Nat), a ∉ nkeys m → d ≤ a → a < d + n →
      nlookup (gapFill m d n) a = some 0 := by
  intro n
  induction n with
  | zero => intro m d a _ h1 h2; omega
  | succ n ih =>
    intro m d a ha h1 h2
    rw [gapFill]
    by_cases hc : ncontains m d
    · rw [if_pos hc]
      have had : a ≠ d := fun h => ha (h ▸ ncontains_iff.mp hc)
      exact ih m (d + 1) a ha (by omega) (by omega)
    · rw [if_neg hc]
      have hins : dictInsert m d 0 = m ++ [(d, 0)] := by
        rw [dictInsert, if_neg (by simpa [ncontains] using hc)]
      by_cases had : a = d
      · subst had
        rw [hins]
        rw [nlookup_gapFill_of_mem n _ (a + 1) a (by simp [nkeys])]
        exact nlookup_append_singleton_self ha
      · rw [hins]
        exact ih _ (d + 1) a
          (by
            intro hmem
            rcases mem_nkeys.mp hmem with ⟨p, hp, hpk⟩
            rcases List.mem_append.mp hp with hp' | hp'
            · exact ha (mem_nkeys.mpr ⟨p, hp', hpk⟩)
            · simp at hp'
              subst hp'
              exact had hpk.symm)
          (by omega) (by omega)

/-! ## Reshaping lemmas -/

theorem mem_nkeys_foldl_insertEntry :
    ∀ (ivs : List IntervalEntry) (acc : NDict) (a : Nat),
      a ∈ nkeys (ivs.foldl insertEntry acc) ↔
        a ∈ nkeys acc ∨ ∃ iv ∈ ivs, iv.date = some a ∧ iv.value.isSome = true := by
  intro ivs
  induction ivs with
  | nil => intro acc a; simp
  | cons iv rest ih =>
    intro acc a
    rw [List.foldl_cons, ih]
    constructor
    · rintro (hmem | ⟨iv', hiv', hd, hv⟩)
      · rcases hiv : iv.date with _ | d
        · left
          simpa [insertEntry, hiv] using hmem
        · rcases hivv : iv.value with _ | v
          · left
            simpa [insertEntry, hiv, hivv] using hmem
          · rcases mem_nkeys_dictInsert.mp (by simpa [insertEntry, hiv, hivv] using hmem)
              with hacc | rfl
            · exact Or.inl hacc
            · exact Or.inr ⟨iv, List.mem_cons_self _ _, hiv, by simp [hivv]⟩
      · exact Or.inr ⟨iv', List.mem_cons_of_mem _ hiv', hd, hv⟩
    · rintro (hacc | ⟨iv', hiv', hd, hv⟩)
      · left
        rcases hiv : iv.date with _ | d
        · simpa [insertEntry, hiv] using hacc
        · rcases hivv : iv.value with _ | v
          · simpa [insertEntry, hiv, hivv] using hacc
          · simpa [insertEntry, hiv, hivv] using mem_nkeys_dictInsert.mpr (Or.inl hacc)
      · rcases List.mem_cons.mp hiv' with rfl | hrest
        · left
          obtain ⟨v, hv'⟩ := Option.isSome_iff_exists.mp hv
          simpa [insertEntry, hd, hv'] using mem_nkeys_dictInsert.mpr (Or.inr rfl)
        · exact Or.inr ⟨iv', hrest, hd, hv⟩

theorem nodup_nkeys_foldl_insertEntry :
    ∀ (ivs : List IntervalEntry) (acc : NDict),
      (nkeys acc).Nodup → (nkeys (ivs.foldl insertEntry acc)).Nodup := by
  intro ivs
  induction ivs with
  | nil => intro acc h; simpa using h
  | cons iv rest ih =>
    intro acc h
    rw [List.foldl_cons]
    refine ih _ ?_
    rcases hiv : iv.date with _ | d
    · simpa [insertEntry, hiv] using h
    · rcases hivv : iv.value with _ | v
      · simpa [insertEntry, hiv, hivv] using h
      · simpa [insertEntry, hiv, hivv] using nodup_nkeys_dictInsert h

theorem foldl_insertEntry_filter :
    ∀ (ivs : List IntervalEntry) (acc : NDict),
      ivs.foldl insertEntry acc = (ivs.filter completeEntry).foldl insertEntry acc := by
  intro ivs
  induction ivs with
  | nil => intro acc; rfl
  | cons iv rest ih =>
    intro acc
    rw [List.foldl_cons]
    by_cases hc : completeEntry iv
    · rw [List.filter_cons_of_pos hc, List.foldl_cons, ih]
    · have hskip : insertEntry acc iv = acc := by
        rcases hiv : iv.date with _ | d
        · simp [insertEntry, hiv]
        · rcases hivv : iv.value with _ | v
          · simp [insertEntry, hiv, hivv]
          · exact absurd (by simp [completeEntry, hiv, hivv]) hc
      rw [List.filter_cons_of_neg hc, hskip, ih]

theorem reshapeIntervals_eq_foldl (data : Option ApiData) :
    reshapeIntervals data = (intervalsOf data).foldl insertEntry [] := by
  rcases data with _ | ⟨_ | mr⟩
  · rfl
  · rfl
  · rcases mr with ⟨_ | l⟩
    · rfl
    · rfl

theorem nodup_nkeys_reshape (data : Option ApiData) :
    (nkeys (reshapeIntervals data)).Nodup := by
  rw [reshapeIntervals_eq_foldl]
  exact nodup_nkeys_foldl_insertEntry _ [] (by simp [nkeys])

theorem mem_nkeys_reshape {data : Option ApiData} {a : Nat} :
    a ∈ nkeys (reshapeIntervals data) ↔
      ∃ iv ∈ intervalsOf data, iv.date = some a ∧ iv.value.isSome = true := by
  rw [reshapeIntervals_eq_foldl, mem_nkeys_foldl_insertEntry]
  simp [nkeys]

theorem mem_payloadDates_of_mem_reshape {data : Option ApiData} {a : Nat}
    (h : a ∈ nkeys (reshapeIntervals data)) : a ∈ payloadDates data := by
  obtain ⟨iv, hiv, hd, _⟩ := mem_nkeys_reshape.mp h
  unfold payloadDates
  rw [List.mem_filterMap]
  exact ⟨iv, hiv, hd⟩

/-! ## Claim C1 -/

/-- C1 (counterexample to the claim as stated): with `start = 10` and
`end = 11`, a payload whose single reading is dated day 20 makes
`get_daily_consumption` return a mapping that contains the key 20, which
lies outside `[start, end)` — the code gap-fills the range but never
filters payload dates against it. -/
theorem C1_counterexample :
    (get_daily_consumption exampleConnected (envAlwaysOk examplePayload)
        (some 10) (some 11)).1 = .ok [(20, 5), (10, 0)] ∧
      20 ∈ nkeys [(20, 5), (10, 0)] ∧ ¬ (10 ≤ 20 ∧ 20 < 11) := by
  refine ⟨rfl, by decide, by decide⟩

/-- C1 (amended): for `start ≤ end`, the daily result has pairwise
distinct keys, contains every calendar day of `[start, end)`, maps every
day of the range that carries no payload reading to `0`, and every key
lies in `[start, end)` or is a date carried by the payload (dates outside
the range are not filtered out); `get_daily_consumption` and
`get_daily_production` return exactly `_process_daily_data start end` of
the payload their single `get_data` call produced. -/
theorem C1_daily_range_keys_amended (s e : Nat) (data : Option ApiData) (hse : s ≤ e) :
    (nkeys (_process_daily_data s e data)).Nodup ∧
    (∀ d, s ≤ d → d < e → d ∈ nkeys (_process_daily_data s e data)) ∧
    (∀ d, s ≤ d → d < e → d ∉ payloadDates data →
      nlookup (_process_daily_data s e data) d = some 0) ∧
    (∀ k, k ∈ nkeys (_process_daily_data s e data) →
      (s ≤ k ∧ k < e) ∨ k ∈ payloadDates data) ∧
    (∀ (st : ClientState) (env : Nat → Attempt (Option ApiData)) (st' : ClientState)
        (tr : List SDict) (data2 : Option ApiData),
      get_data st [] true env = (.ok data2, st', tr) →
      get_daily_consumption st env (some s) (some e) =
          (.ok (_process_daily_data s e data2), st', 1) ∧
        get_daily_production st env (some s) (some e) =
          (.ok (_process_daily_data s e data2), st', 1)) := by
  refine ⟨?_, ?_, ?_, ?_, ?_⟩
  · exact nodup_nkeys_gapFill _ _ _ (nodup_nkeys_reshape data)
  · intro d h1 h2
    unfold _process_daily_data
    exact (mem_nkeys_gapFill _ _ _ _).mpr (Or.inr ⟨h1, by omega⟩)
  · intro d h1 h2 hnp
    unfold _process_daily_data
    have hnr : d ∉ nkeys (reshapeIntervals data) :=
      fun h => hnp (mem_payloadDates_of_mem_reshape h)
    exact nlookup_gapFill_zero_of_not_mem _ _ _ _ hnr h1 (by omega)
  · intro k hk
    unfold _process_daily_data at hk
    rcases (mem_nkeys_gapFill _ _ _ _).mp hk with hr | hrange
    · exact Or.inr (mem_payloadDates_of_mem_reshape hr)
    · exact Or.inl ⟨hrange.1, by omega⟩
  · intro st env st' tr data2 hrun
    have hass : _assert_input (some s) (some e) = .ok () := by
      simp [_assert_input, Nat.not_lt.mpr hse]
    constructor <;>
      simp [get_daily_consumption, get_daily_production, dailyReportOp, hass, hrun]

/-- C1 (witness): day 4 of the window `[3, 5)` is absent from the example
payload and is therefore reported as `0`. -/
theorem C1_daily_range_keys_amended_witness :
    nlookup (_process_daily_data 3 5 examplePayload) 4 = some 0 :=
  (C1_daily_range_keys_amended 3 5 examplePayload (by decide)).2.2.1 4
    (by decide) (by decide) (by decide)

/-! ## Claim C5 -/

/-- C5: each of the five report operations validates through
`_assert_input` first — a `None` start date, a `None` end date, or
`start > end` raises the corresponding `ValueError` with zero `get_data`
calls performed and the client state untouched; for `start ≤ end` the
validation passes. -/
theorem C5_validation (st : ClientState) (env : Nat → Attempt (Option ApiData))
    (sd ed : Option Nat) (s e : Nat) (er : PyError) :
    (_assert_input none ed = .error (.valueError "Start date is not valid")) ∧
    (_assert_input (some s) none = .error (.valueError "End date is not valid")) ∧
    (e < s → _assert_input (some s) (some e) =
      .error (.valueError "End date must be greater than start date")) ∧
    (s ≤ e → _assert_input (some s) (some e) = .ok ()) ∧
    (_assert_input sd ed = .error er →
      get_daily_consumption st env sd ed = (.error er, st, 0) ∧
      get_daily_production st env sd ed = (.error er, st, 0) ∧
      get_max_daily_consumed_power st env sd ed = (.error er, st, 0) ∧
      get_consumption_load_curve st env sd ed = (.error er, st, 0) ∧
      get_production_load_curve st env sd ed = (.error er, st, 0)) := by
  refine ⟨rfl, rfl, ?_, ?_, ?_⟩
  · intro h
    simp [_assert_input, h]
  · intro h
    simp [_assert_input, Nat.not_lt.mpr h]
  · intro h
    refine ⟨?_, ?_, ?_, ?_, ?_⟩ <;>
      simp [get_daily_consumption, get_daily_production, get_max_daily_consumed_power,
        get_consumption_load_curve, get_production_load_curve, dailyReportOp,
        curveReportOp, h]

/-- C5 (witness): a reversed window raises the value error with zero
network calls on the daily-consumption operation. -/
theorem C5_validation_witness :
    get_daily_consumption exampleConnected (envAlwaysOk examplePayload)
        (some 9) (some 2) =
      (.error (.valueError "End date must be greater than start date"),
        exampleConnected, 0) :=
  ((C5_validation exampleConnected (envAlwaysOk examplePayload)
      (some 9) (some 2) 9 2
      (.valueError "End date must be greater than start date")).2.2.2.2
    (by rfl)).1

/-! ## Claim C10 -/

/-- C10: the reshaping functions return the empty mapping (before
gap-filling) on a `null` payload or when `meter_reading` /
`interval_reading` is missing, raise no error on those shapes, and
silently skip every `interval_reading` entry lacking a `date` or a
`value` key — filtering the entries down to the complete ones changes
nothing, and only complete entries contribute keys. -/
theorem C10_reshape_skip (ivs : List IntervalEntry) (s e : Nat) :
    _process_data none = [] ∧
    _process_data (some { meter_reading := none }) = [] ∧
    _process_data (some { meter_reading := some { interval_reading := none } }) = [] ∧
    _process_data (mkPayload ivs) = _process_data (mkPayload (ivs.filter completeEntry)) ∧
    _process_daily_data s e (mkPayload ivs) =
      _process_daily_data s e (mkPayload (ivs.filter completeEntry)) ∧
    (∀ a, a ∈ nkeys (_process_data (mkPayload ivs)) ↔
      ∃ iv ∈ ivs, completeEntry iv = true ∧ iv.date = some a) := by
  have hfil : reshapeIntervals (mkPayload ivs) =
      reshapeIntervals (mkPayload (ivs.filter completeEntry)) := by
    rw [reshapeIntervals_eq_foldl, reshapeIntervals_eq_foldl]
    exact foldl_insertEntry_filter ivs []
  refine ⟨rfl, rfl, rfl, hfil, ?_, ?_⟩
  · unfold _process_daily_data
    rw [hfil]
  · intro a
    rw [show _process_data (mkPayload ivs) = reshapeIntervals (mkPayload ivs) from rfl]
    rw [mem_nkeys_reshape]
    constructor
    · rintro ⟨iv, hiv, hd, hv⟩
      exact ⟨iv, hiv, by simp [completeEntry, hd, hv], hd⟩
    · rintro ⟨iv, hiv, hc, hd⟩
      refine ⟨iv, hiv, hd, ?_⟩
      simpa [completeEntry, hd] using hc

/-- C10 (witness): an entry missing its `date` key is skipped, so the
reshaped mapping of a two-entry payload equals that of its single
complete entry. -/
theorem C10_reshape_skip_witness :
    _process_data (mkPayload [⟨some 1, some 2⟩, ⟨none, some 9⟩]) =
      _process_data (mkPayload [⟨some 1, some 2⟩]) := by
  have h := (C10_reshape_skip [⟨some 1, some 2⟩, ⟨none, some 9⟩] 0 0).2.2.2.1
  simpa using h

/-! ## Retry-loop lemmas -/

theorem requestLoop_all_fail {β : Type} (env : Nat → Attempt β) (auto_connect : Bool)
    (mkH : Option SDict → Except PyError SDict) (h : SDict) :
    ∀ (fuel i : Nat) (st : ClientState) (lastExn : Option PyError) (tr : List SDict),
      (auto_connect = true → is_connected st = true) →
      mkH st.token_data = .ok h →
      (∀ j, j < fuel → failingSend auto_connect (env (i + j)).send) →
      requestLoop env auto_connect mkH st i lastExn tr fuel =
        (.error (.apiRequestError (lastExnAfter env lastExn i fuel)),
         { st with errors_count := st.errors_count + 1 }, tr ++ List.replicate fuel h) := by
  intro fuel
  induction fuel with
  | zero =>
    intro i st lastExn tr _ _ _
    simp [requestLoop, lastExnAfter]
  | succ n ih =>
    intro i st lastExn tr hconn hmk hfail
    have hcs : ¬ (auto_connect = true ∧ ¬ is_connected st = true) := by
      rintro ⟨ha, hb⟩
      exact hb (hconn ha)
    rw [requestLoop]
    simp only [if_neg hcs, hmk]
    have hfail0 := hfail 0 (Nat.succ_pos n)
    rw [Nat.add_zero] at hfail0
    have hfail' : ∀ j, j < n → failingSend auto_connect (env (i + 1 + j)).send := by
      intro j hj
      have := hfail (j + 1) (by omega)
      simpa [Nat.add_assoc, Nat.add_comm 1 j] using this
    rcases hs : (env i).send with e | ⟨status, body⟩
    · dsimp only
      rw [ih (i + 1) st (some e) (tr ++ [h]) hconn hmk hfail']
      rcases n with _ | m
      · simp [lastExnAfter, hs, capturedExn, List.append_assoc]
      · have : i + 1 + m = i + (m + 1) := by omega
        simp [lastExnAfter, this, List.append_assoc, List.replicate_succ]
    · dsimp only
      rw [hs] at hfail0
      obtain ⟨h200, h401⟩ := hfail0
      by_cases hs401 : status = 401
      · have hauto : auto_connect = false := by
          rcases auto_connect with _ | _
          · rfl
          · exact absurd hs401 (h401 rfl)
        subst hauto
        rw [if_pos hs401]
        rw [if_neg (by simp : ¬ (false : Bool) = true)]
        rw [ih (i + 1) st (some .invalidAccess) (tr ++ [h]) hconn hmk hfail']
        rcases n with _ | m
        · simp [lastExnAfter, hs, capturedExn, List.append_assoc]
        · have : i + 1 + m = i + (m + 1) := by omega
          simp [lastExnAfter, this, List.append_assoc, List.replicate_succ]
      · rw [if_neg hs401, if_neg h200]
        rw [ih (i + 1) st (some .invalidAccess) (tr ++ [h]) hconn hmk hfail']
        rcases n with _ | m
        · simp [lastExnAfter, hs, capturedExn, List.append_assoc]
        · have : i + 1 + m = i + (m + 1) := by omega
          simp [lastExnAfter, this, List.append_assoc, List.replicate_succ]

theorem connLoop_all_fail (cenv : Nat → SendOutcome SDict) :
    ∀ (fuel i : Nat) (st : ClientState) (lastExn : Option PyError),
      (∀ j, j < fuel → failingSend false (cenv (i + j))) →
      connLoop cenv st i lastExn fuel =
        (.error (.apiRequestError (lastSendExnAfter cenv lastExn i fuel)),
         { st with errors_count := st.errors_count + 1 }) := by
  intro fuel
  induction fuel with
  | zero =>
    intro i st lastExn _
    simp [connLoop, lastSendExnAfter]
  | succ n ih =>
    intro i st lastExn hfail
    have hfail0 := hfail 0 (Nat.succ_pos n)
    rw [Nat.add_zero] at hfail0
    have hfail' : ∀ j, j < n → failingSend false (cenv (i + 1 + j)) := by
      intro j hj
      have := hfail (j + 1) (by omega)
      simpa [Nat.add_assoc, Nat.add_comm 1 j] using this
    rw [connLoop]
    rcases hs : cenv i with e | ⟨status, body⟩
    · dsimp only
      rw [ih (i + 1) st (some e) hfail']
      rcases n with _ | m
      · simp [lastSendExnAfter, hs, capturedExn]
      · have : i + 1 + m = i + (m + 1) := by omega
        simp [lastSendExnAfter, this]
    · dsimp only
      rw [hs] at hfail0
      obtain ⟨h200, _⟩ := hfail0
      rw [if_neg h200]
      rw [ih (i + 1) st (some .invalidAccess) hfail']
      rcases n with _ | m
      · simp [lastSendExnAfter, hs, capturedExn]
      · have : i + 1 + m = i + (m + 1) := by omega
        simp [lastSendExnAfter, this]

theorem requestLoop_trace_length_le {β : Type} (env : Nat → Attempt β)
    (auto_connect : Bool) (mkH : Option SDict → Except PyError SDict) :
    ∀ (fuel i : Nat) (st : ClientState) (lastExn : Option PyError) (tr : List SDict),
      ((requestLoop env auto_connect mkH st i lastExn tr fuel).2.2).length ≤
        tr.length + fuel := by
  intro fuel
  induction fuel with
  | zero =>
    intro i st lastExn tr
    simp [requestLoop]
  | succ n ih =>
    intro i st lastExn tr
    rw [requestLoop]
    rcases hcs : (if auto_connect = true ∧ ¬ is_connected st = true
        then connect st (env i).connTop else (none, st)) with ⟨(_ | e), st1⟩
    · dsimp only
      rcases hmk : mkH st1.token_data with e | h
      · simp
      · dsimp only
        rcases (env i).send with e | ⟨status, body⟩
        · dsimp only
          calc ((requestLoop env auto_connect mkH st1 (i + 1) (some e)
                (tr ++ [h]) n).2.2).length ≤ (tr ++ [h]).length + n := ih (i + 1) st1 _ _
            _ ≤ tr.length + (n + 1) := by simp only [List.length_append, List.length_cons, List.length_nil]; omega
        · dsimp only
          by_cases hs401 : status = 401
          · rw [if_pos hs401]
            by_cases hauto : auto_connect = true
            · rw [if_pos hauto]
              rcases connect { st1 with token_data := none } (env i).conn401
                with ⟨(_ | e2), st3⟩
              · dsimp only
                calc ((requestLoop env auto_connect mkH st3 (i + 1) lastExn
                      (tr ++ [h]) n).2.2).length ≤ (tr ++ [h]).length + n := ih (i + 1) st3 _ _
                  _ ≤ tr.length + (n + 1) := by simp only [List.length_append, List.length_cons, List.length_nil]; omega
              · dsimp only
                calc ((requestLoop env auto_connect mkH st3 (i + 1) (some e2)
                      (tr ++ [h]) n).2.2).length ≤ (tr ++ [h]).length + n := ih (i + 1) st3 _ _
                  _ ≤ tr.length + (n + 1) := by simp only [List.length_append, List.length_cons, List.length_nil]; omega
            · rw [if_neg hauto]
              calc ((requestLoop env auto_connect mkH st1 (i + 1) (some .invalidAccess)
                    (tr ++ [h]) n).2.2).length ≤ (tr ++ [h]).length + n := ih (i + 1) st1 _ _
                _ ≤ tr.length + (n + 1) := by simp only [List.length_append, List.length_cons, List.length_nil]; omega
          · rw [if_neg hs401]
            by_cases hs200 : status = 200
            · rw [if_pos hs200]
              simp
            · rw [if_neg hs200]
              calc ((requestLoop env auto_connect mkH st1 (i + 1) (some .invalidAccess)
                    (tr ++ [h]) n).2.2).length ≤ (tr ++ [h]).length + n := ih (i + 1) st1 _ _
                _ ≤ tr.length + (n + 1) := by simp only [List.length_append, List.length_cons, List.length_nil]; omega
    · simp

theorem requestLoop_request_count_of_no_connect {β : Type} (env : Nat → Attempt β)
    (auto_connect : Bool) (mkH : Option SDict → Except PyError SDict) :
    ∀ (fuel i : Nat) (st : ClientState) (lastExn : Option PyError) (tr : List SDict),
      (auto_connect = true → is_connected st = true ∧
        ∀ j, j < fuel → non401Send (env (i + j)).send) →
      ((requestLoop env auto_connect mkH st i lastExn tr fuel).2.1).request_count =
          st.request_count ∧
        ((requestLoop env auto_connect mkH st i lastExn tr fuel).2.1).token_data =
          st.token_data := by
  intro fuel
  induction fuel with
  | zero =>
    intro i st lastExn tr _
    simp [requestLoop]
  | succ n ih =>
    intro i st lastExn tr hside
    have hcs : ¬ (auto_connect = true ∧ ¬ is_connected st = true) := by
      rintro ⟨ha, hb⟩
      exact hb (hside ha).1
    have hside' : auto_connect = true → is_connected st = true ∧
        ∀ j, j < n → non401Send (env (i + 1 + j)).send := by
      intro ha
      refine ⟨(hside ha).1, fun j hj => ?_⟩
      have := (hside ha).2 (j + 1) (by omega)
      simpa [Nat.add_assoc, Nat.add_comm 1 j] using this
    rw [requestLoop]
    simp only [if_neg hcs]
    rcases hmk : mkH st.token_data with e | h
    · simp
    · dsimp only
      rcases hs : (env i).send with e | ⟨status, body⟩
      · dsimp only
        exact ih (i + 1) st _ _ hside'
      · dsimp only
        by_cases hs401 : status = 401
        · have hauto : auto_connect = false := by
            rcases hauto : auto_connect with _ | _
            · rfl
            · have := (hside hauto).2 0 (Nat.succ_pos n)
              rw [Nat.add_zero, hs, hs401] at this
              exact absurd this (by simp [non401Send])
          subst hauto
          rw [if_pos hs401]
          rw [if_neg (by simp : ¬ (false : Bool) = true)]
          exact ih (i + 1) st _ _ hside'
        · rw [if_neg hs401]
          by_cases hs200 : status = 200
          · rw [if_pos hs200]
            simp
          · rw [if_neg hs200]
            exact ih (i + 1) st _ _ hside'

/-- The canonical 401-with-auto-connect run: a connected client (holding
the non-empty token dict `td`) gets a 401 on the first attempt, clears its
token, re-authenticates through one successful token exchange yielding
`td2`, and the second attempt succeeds. `get_data` rebuilds its request
per attempt, so the second dispatch carries `h2`, built from the fresh
token; the nested token exchange adds a second request-count increment. -/
theorem get_data_reauth_run {β : Type} (st : ClientState) (td td2 : SDict) (b0 body : β)
    (env : Nat → Attempt β) (h1 h2 : SDict)
    (htd : st.token_data = some td)
    (htdne : td.isEmpty = false)
    (h0s : (env 0).send = .resp 401 b0)
    (hc : (env 0).conn401 0 = .resp 200 td2)
    (htd2 : td2.isEmpty = false)
    (h1s : (env 1).send = .resp 200 body)
    (hmk1 : _get_headers (some td) [] = .ok h1)
    (hmk2 : _get_headers (some td2) [] = .ok h2) :
    get_data st [] true env =
      (.ok body,
       { st with token_data := some td2, request_count := st.request_count + 2 },
       [h1, h2]) := by
  simp [get_data, requestLoop, connect, connLoop, is_connected, htd, htdne, h0s, hc,
    htd2, h1s, hmk1, hmk2]

/-- The same 401-with-auto-connect run through `post_data_with_result`:
the request is prepared once before the loop, so the retry after the
re-authentication re-sends the headers `h1` built from the token at call
entry, not headers built from the fresh token `td2`. -/
theorem post_reauth_run {β : Type} (st : ClientState) (td td2 : SDict) (b0 body : β)
    (env : Nat → Attempt β) (h1 : SDict)
    (htd : st.token_data = some td)
    (htdne : td.isEmpty = false)
    (h0s : (env 0).send = .resp 401 b0)
    (hc : (env 0).conn401 0 = .resp 200 td2)
    (htd2 : td2.isEmpty = false)
    (h1s : (env 1).send = .resp 200 body)
    (hmk1 : _get_headers (some td) [] = .ok h1) :
    post_data_with_result st [] true env =
      (.ok body,
       { st with token_data := some td2, request_count := st.request_count + 2 },
       [h1, h1]) := by
  simp [post_data_with_result, requestLoop, connect, connLoop, is_connected, htd, htdne,
    h0s, hc, htd2, h1s, hmk1]

/-! ## String-dict lemmas -/

theorem dlookup_cons_of_eq {p : String × String} {d : SDict} {k : String} (h : p.1 = k) :
    dlookup (p :: d) k = some p.2 := by
  unfold dlookup
  rw [List.find?_cons_of_pos _ (by simpa using h)]
  rfl

theorem dlookup_cons_of_ne {p : String × String} {d : SDict} {k : String} (h : ¬ p.1 = k) :
    dlookup (p :: d) k = dlookup d k := by
  unfold dlookup
  rw [List.find?_cons_of_neg _ (by simpa using h)]

theorem dlookup_dictInsertS_self : ∀ (d : SDict) (k v : String),
    dlookup (dictInsertS d k v) k = some v := by
  intro d k v
  induction d with
  | nil => simp [dictInsertS, dlookup]
  | cons p d ih =>
    unfold dictInsertS
    by_cases hp : p.1 = k
    · rw [if_pos (by simp [List.any_cons, hp])]
      simp only [List.map_cons, if_pos hp]
      exact dlookup_cons_of_eq (p := (k, v)) rfl
    · rcases ha : d.any (fun q => q.1 = k) with _ | _
      · rw [if_neg (by simp [List.any_cons, hp, ha])]
        rw [List.cons_append, dlookup_cons_of_ne hp]
        have h' := ih
        rw [dictInsertS, if_neg (by simp [ha])] at h'
        exact h'
      · rw [if_pos (by simp [List.any_cons, ha])]
        simp only [List.map_cons]
        rw [if_neg hp, dlookup_cons_of_ne hp]
        have h' := ih
        rw [dictInsertS, if_pos (by simp [ha])] at h'
        exact h'

theorem dlookup_dictInsertS_of_ne : ∀ (d : SDict) (k v a : String), a ≠ k →
    dlookup (dictInsertS d k v) a = dlookup d a := by
  intro d k v a hne
  induction d with
  | nil => simp [dictInsertS, dlookup, Ne.symm hne]
  | cons p d ih =>
    unfold dictInsertS
    by_cases hp : p.1 = k
    · rw [if_pos (by simp [List.any_cons, hp])]
      simp only [List.map_cons, if_pos hp]
      have hkp : ¬ ((k, v) : String × String).1 = a := fun h => hne h.symm
      rw [dlookup_cons_of_ne hkp, dlookup_cons_of_ne (by rw [hp]; exact fun h => hne h.symm)]
      rcases ha : d.any (fun q => q.1 = k) with _ | _
      · -- the map over d is the identity: no further entry has key k
        have hid : d.map (fun q => if q.1 = k then (k, v) else q) = d.map id := by
          refine List.map_congr_left (fun q hq => ?_)
          have hqk' : ¬ q.1 = k := by
            intro hqk
            have hany : d.any (fun q => q.1 = k) = true :=
              List.any_eq_true.mpr ⟨q, hq, by simp [hqk]⟩
            simp [ha] at hany
          rw [if_neg hqk']
          rfl
        rw [hid, List.map_id]
      · have h' := ih
        rw [dictInsertS, if_pos (by simp [ha])] at h'
        exact h'
  -- fallthrough for the remaining case handled below
    · rcases ha : d.any (fun q => q.1 = k) with _ | _
      · rw [if_neg (by simp [List.any_cons, hp, ha])]
        rw [List.cons_append]
        by_cases hpa : p.1 = a
        · rw [dlookup_cons_of_eq hpa, dlookup_cons_of_eq hpa]
        · rw [dlookup_cons_of_ne hpa, dlookup_cons_of_ne hpa]
          have h' := ih
          rw [dictInsertS, if_neg (by simp [ha])] at h'
          exact h'
      · rw [if_pos (by simp [List.any_cons, ha])]
        simp only [List.map_cons]
        rw [if_neg hp]
        by_cases hpa : p.1 = a
        · rw [dlookup_cons_of_eq hpa, dlookup_cons_of_eq hpa]
        · rw [dlookup_cons_of_ne hpa, dlookup_cons_of_ne hpa]
          have h' := ih
          rw [dictInsertS, if_pos (by simp [ha])] at h'
          exact h'

theorem dcontains_eq_isSome (d : SDict) (a : String) :
    dcontains d a = (dlookup d a).isSome := by
  induction d with
  | nil => rfl
  | cons p d ih =>
    by_cases hp : p.1 = a
    · rw [dlookup_cons_of_eq hp]
      simp [dcontains, List.any_cons, hp]
    · rw [dlookup_cons_of_ne hp]
      rw [show dcontains (p :: d) a = dcontains d a from by simp [dcontains, List.any_cons, hp]]
      exact ih

theorem dcontains_dictInsertS_of_ne (d : SDict) (k v a : String) (hne : a ≠ k) :
    dcontains (dictInsertS d k v) a = dcontains d a := by
  rw [dcontains_eq_isSome, dcontains_eq_isSome, dlookup_dictInsertS_of_ne d k v a hne]

theorem post_without_state_eq {β : Type} (st : ClientState) (headers : SDict)
    (auto_connect : Bool) (env : Nat → Attempt β) :
    (post_data_without_result st headers auto_connect env).2 =
      (post_data_with_result st headers auto_connect env).2 := by
  unfold post_data_without_result
  rcases post_data_with_result st headers auto_connect env with ⟨r, st2, tr⟩
  rcases r with e | b
  · rfl
  · rfl

/-! ## Claim C2 -/

/-- C2 (counterexample to the claim as stated): with `auto_connect=False`
a 401 on the first attempt does not propagate an access-denied error
immediately — the `raise InvalidAccess` sits inside the attempt's broad
`try/except`, so it is captured and the loop retries: a second attempt
answering 200 makes the call return normally, having consumed two
attempts. -/
theorem C2_counterexample :
    (env401then200 0).send = .resp 401 0 ∧
    (get_data exampleConnected [] false env401then200).1 = .ok 42 ∧
    (get_data exampleConnected [] false env401then200).2.2.length = 2 :=
  ⟨rfl, rfl, rfl⟩

/-- C2 (amended): with `auto_connect=False` a 401 raises `InvalidAccess`
inside the attempt's `try`, where the broad `except` immediately captures
it and the loop retries; if every attempt yields 401 the call ends by
raising `ApiRequestError` wrapping that `InvalidAccess` and incrementing
the error counter once. With `auto_connect=True` a 401 clears the token
state and re-authenticates, consuming one retry attempt (and one nested
token request) without raising, and the next attempt proceeds with the
fresh token. -/
theorem C2_401_amended (β : Type) (st : ClientState) (headers h h1 h2 td td2 : SDict)
    (env : Nat → Attempt β) (b0 body : β) :
    (_get_headers st.token_data headers = .ok h →
      (∀ j, j < 3 → ∃ b : β, (env j).send = .resp 401 b) →
      get_data st headers false env =
        (.error (.apiRequestError (some .invalidAccess)),
         { st with request_count := st.request_count + 1,
                   errors_count := st.errors_count + 1 },
         List.replicate 3 h)) ∧
    (st.token_data = some td → td.isEmpty = false →
      (env 0).send = .resp 401 b0 → (env 0).conn401 0 = .resp 200 td2 →
      td2.isEmpty = false → (env 1).send = .resp 200 body →
      _get_headers (some td) [] = .ok h1 → _get_headers (some td2) [] = .ok h2 →
      get_data st [] true env =
        (.ok body,
         { st with token_data := some td2, request_count := st.request_count + 2 },
         [h1, h2])) := by
  constructor
  · intro hmk h401
    have hfail : ∀ j, j < 3 → failingSend false (env (0 + j)).send := by
      intro j hj
      obtain ⟨b, hb⟩ := h401 j (by omega)
      rw [Nat.zero_add, hb]
      exact ⟨by omega, by simp⟩
    have hrun := requestLoop_all_fail env false (fun t => _get_headers t headers) h 3 0
      { st with request_count := st.request_count + 1 } none [] (by simp) hmk hfail
    unfold get_data
    rw [hrun]
    obtain ⟨b2, hb2⟩ := h401 2 (by omega)
    simp [lastExnAfter, hb2, capturedExn]
  · intro htd htdne h0s hc htd2 h1s hmk1 hmk2
    exact get_data_reauth_run st td td2 b0 body env h1 h2 htd htdne h0s hc htd2 h1s
      hmk1 hmk2

/-- C2 (witness): a connected client receiving 401 then 200 with
auto-connect on returns the final payload, holds the fresh token, has
counted two requests (the call plus the nested token exchange) and
dispatched the second attempt with headers built from the fresh token. -/
theorem C2_401_amended_witness :
    get_data exampleConnected [] true envReauthThen200 =
      (.ok 9,
       { exampleConnected with token_data := some (mkToken "NEW"), request_count := 2 },
       [headersOld, headersNew]) :=
  (C2_401_amended Nat exampleConnected [] [] headersOld headersNew (mkToken "OLD")
      (mkToken "NEW") envReauthThen200 0 9).2
    rfl rfl rfl rfl rfl rfl rfl rfl

/-! ## Claim C4 -/

/-- C4 (counterexample to the claim as stated): all three retry attempts
of this run complete without a 200 (three headers dispatched, final
`ApiRequestError`), yet the error counter rises by 2, not exactly once:
the first attempt's 401 triggers a re-authentication whose own token
exchange exhausts its budget and increments the error counter inside the
nested `post_data_with_result`, and the outer exhaustion increments it
again. -/
theorem C4_counterexample :
    (get_data exampleConnected [] true envNestedExhaust).1 =
      .error (.apiRequestError (some .invalidAccess)) ∧
    (get_data exampleConnected [] true envNestedExhaust).2.2 =
      [headersOld, headersNew, headersNew] ∧
    exampleConnected.errors_count = 0 ∧
    (get_data exampleConnected [] true envNestedExhaust).2.1.errors_count = 2 :=
  ⟨rfl, rfl, rfl, rfl⟩

/-- C4 (amended): when all retry attempts complete without an HTTP 200,
the call raises `ApiRequestError` wrapping the exception captured from
the last attempt, and the loop dispatches at most 3 sends. The outer
exhaustion increments the error counter exactly once, and the call
itself increments the request counter exactly once — but a 401 attempt
whose nested re-authentication exhausts its own budget adds one further
increment to each counter through its token exchange, so the totals are
1 plus one per exhausted (respectively, per performed) nested
`connect()`: exactly 1 when no attempt triggers a re-authentication. -/
theorem C4_exhaustion_amended (β : Type) (st : ClientState)
    (headers h h1 h2 td td2 : SDict) (auto_connect : Bool) (env : Nat → Attempt β)
    (b0 b1 b2 : β) (s1 s2 : Nat) :
    ((auto_connect = true → is_connected st = true) →
      _get_headers st.token_data headers = .ok h →
      (∀ j, j < 3 → failingSend auto_connect (env j).send) →
      get_data st headers auto_connect env =
        (.error (.apiRequestError (some (capturedExn (env 2).send))),
         { st with request_count := st.request_count + 1,
                   errors_count := st.errors_count + 1 },
         List.replicate 3 h) ∧
      post_data_with_result st headers auto_connect env =
        (.error (.apiRequestError (some (capturedExn (env 2).send))),
         { st with request_count := st.request_count + 1,
                   errors_count := st.errors_count + 1 },
         List.replicate 3 h) ∧
      post_data_without_result st headers auto_connect env =
        (.error (.apiRequestError (some (capturedExn (env 2).send))),
         { st with request_count := st.request_count + 1,
                   errors_count := st.errors_count + 1 },
         List.replicate 3 h)) ∧
    (∀ (env2 : Nat → Attempt β) (auto2 : Bool) (headers2 : SDict),
      ((get_data st headers2 auto2 env2).2.2).length ≤ 3) ∧
    (st.token_data = some td → td.isEmpty = false →
      _get_headers (some td) [] = .ok h1 →
      (env 0).send = .resp 401 b0 →
      (∀ j, j < 3 → failingSend false ((env 0).conn401 j)) →
      (env 1).connTop 0 = .resp 200 td2 → td2.isEmpty = false →
      _get_headers (some td2) [] = .ok h2 →
      (env 1).send = .resp s1 b1 → s1 ≠ 200 → s1 ≠ 401 →
      (env 2).send = .resp s2 b2 → s2 ≠ 200 → s2 ≠ 401 →
      get_data st [] true env =
        (.error (.apiRequestError (some .invalidAccess)),
         { st with token_data := some td2, request_count := st.request_count + 3,
                   errors_count := st.errors_count + 2 },
         [h1, h2, h2])) := by
  refine ⟨?_, ?_, ?_⟩
  · intro hconn hmk hfail
    have hfail2 : ∀ j, j < 3 → failingSend auto_connect (env (0 + j)).send := by
      intro j hj
      rw [Nat.zero_add]
      exact hfail j hj
    have hget : get_data st headers auto_connect env =
        (.error (.apiRequestError (some (capturedExn (env 2).send))),
         { st with request_count := st.request_count + 1,
                   errors_count := st.errors_count + 1 },
         List.replicate 3 h) := by
      have hrun := requestLoop_all_fail env auto_connect (fun t => _get_headers t headers)
        h 3 0 { st with request_count := st.request_count + 1 } none [] hconn hmk hfail2
      unfold get_data
      rw [hrun]
      simp [lastExnAfter]
    have hpost : post_data_with_result st headers auto_connect env =
        (.error (.apiRequestError (some (capturedExn (env 2).send))),
         { st with request_count := st.request_count + 1,
                   errors_count := st.errors_count + 1 },
         List.replicate 3 h) := by
      have hrun := requestLoop_all_fail env auto_connect (fun _ => .ok h) h
        3 0 { st with request_count := st.request_count + 1 } none [] hconn rfl hfail2
      unfold post_data_with_result
      rw [hmk]
      dsimp only
      rw [hrun]
      simp [lastExnAfter]
    refine ⟨hget, hpost, ?_⟩
    unfold post_data_without_result
    rw [hpost]
  · intro env2 auto2 headers2
    unfold get_data
    have := requestLoop_trace_length_le env2 auto2 (fun t => _get_headers t headers2)
      3 0 { st with request_count := st.request_count + 1 } none []
    simpa using this
  · intro htd htdne hmk1 h0s hcfail hconn200 htd2 hmk2 hs1 hn1a hn1b hs2 hn2a hn2b
    have hcl : ∀ stX : ClientState, connLoop ((env 0).conn401) stX 0 none 3 =
        (.error (.apiRequestError (lastSendExnAfter ((env 0).conn401) none 0 3)),
         { stX with errors_count := stX.errors_count + 1 }) := fun stX =>
      connLoop_all_fail ((env 0).conn401) 3 0 stX none
        (fun j hj => by rw [Nat.zero_add]; exact hcfail j hj)
    have hcw : ∀ stX : ClientState, connLoop ((env 1).connTop) stX 0 none 3 =
        (.ok td2, stX) := by
      intro stX
      rw [connLoop, hconn200]
      dsimp only
      rw [if_pos rfl]
    have htd2ne : td2 ≠ [] := by
      intro hnil
      rw [hnil] at htd2
      simp at htd2
    simp [get_data, requestLoop, connect, is_connected, htd, htdne, hmk1, hmk2, h0s,
      hcl, hcw, hs1, hs2, hn1a, hn1b, hn2a, hn2b, htd2ne]

/-- C4 (witness): three transport exceptions exhaust the budget with no
nested re-authentication — the call raises `ApiRequestError` wrapping the
last exception, with the error and request counters each incremented
exactly once. -/
theorem C4_exhaustion_amended_witness :
    get_data exampleConnected [] true envAllExn =
      (.error (.apiRequestError (some (.transportError 7))),
       { exampleConnected with request_count := 1, errors_count := 1 },
       List.replicate 3 headersOld) :=
  ((C4_exhaustion_amended Nat exampleConnected [] headersOld [] [] [] []
      true envAllExn 0 0 0 0 0).1
    (fun _ => rfl) rfl (fun _ _ => trivial)).1

/-! ## Claim C6 -/

/-- C6 (counterexample to the claim as stated): one `get_data` invocation
on a disconnected client with auto-connect on triggers a nested
`connect()`, whose token exchange goes through `post_data_with_result`
and increments the request counter a second time — the counter delta of
the single invocation is 2, not 1. -/
theorem C6_counterexample :
    (get_data exampleDisconnected [] true envConnectThen200).1 = .ok 7 ∧
    exampleDisconnected.request_count = 0 ∧
    (get_data exampleDisconnected [] true envConnectThen200).2.1.request_count = 2 :=
  ⟨rfl, rfl, rfl⟩

/-- C6 (amended): each of `get_data`, `post_data_with_result` and
`post_data_without_result` increments the request counter exactly once
for the call itself, regardless of how many retry attempts run; the total
delta of an invocation exceeds 1 only through nested `connect()` calls,
each of which adds one more via its own token request. With
`auto_connect=False`, or with auto-connect on a connected client whose
attempts never see a 401, no `connect()` runs and the delta is exactly
1. -/
theorem C6_request_counter_amended (β : Type) (env : Nat → Attempt β)
    (st : ClientState) (headers h : SDict) :
    ((get_data st headers false env).2.1.request_count = st.request_count + 1) ∧
    (_get_headers st.token_data headers = .ok h →
      (post_data_with_result st headers false env).2.1.request_count =
          st.request_count + 1 ∧
        (post_data_without_result st headers false env).2.1.request_count =
          st.request_count + 1) ∧
    (is_connected st = true → (∀ j, j < 3 → non401Send (env j).send) →
      (get_data st headers true env).2.1.request_count = st.request_count + 1 ∧
      (_get_headers st.token_data headers = .ok h →
        (post_data_with_result st headers true env).2.1.request_count =
          st.request_count + 1)) := by
  have hfalse : ∀ (mkH : Option SDict → Except PyError SDict),
      ((requestLoop env false mkH { st with request_count := st.request_count + 1 }
        0 none [] 3).2.1).request_count = st.request_count + 1 := by
    intro mkH
    exact (requestLoop_request_count_of_no_connect env false mkH 3 0
      { st with request_count := st.request_count + 1 } none []
      (fun hx => absurd hx (by simp))).1
  refine ⟨?_, ?_, ?_⟩
  · unfold get_data
    exact hfalse _
  · intro hmk
    constructor
    · unfold post_data_with_result
      rw [hmk]
      dsimp only
      exact hfalse _
    · have hst := post_without_state_eq st headers false env
      rw [show (post_data_without_result st headers false env).2.1 =
        (post_data_with_result st headers false env).2.1 from congrArg Prod.fst hst]
      unfold post_data_with_result
      rw [hmk]
      dsimp only
      exact hfalse _
  · intro hconn hsend
    have htrue : ∀ (mkH : Option SDict → Except PyError SDict),
        ((requestLoop env true mkH { st with request_count := st.request_count + 1 }
          0 none [] 3).2.1).request_count = st.request_count + 1 := by
      intro mkH
      refine (requestLoop_request_count_of_no_connect env true mkH 3 0
        { st with request_count := st.request_count + 1 } none [] ?_).1
      intro _
      refine ⟨hconn, fun j hj => ?_⟩
      rw [Nat.zero_add]
      exact hsend j hj
    constructor
    · unfold get_data
      exact htrue _
    · intro hmk
      unfold post_data_with_result
      rw [hmk]
      dsimp only
      exact htrue _

/-- C6 (witness): on a connected client whose three attempts all raise
transport exceptions, the request counter still rises by exactly one. -/
theorem C6_request_counter_amended_witness :
    (get_data exampleConnected [] true envAllExn).2.1.request_count = 1 :=
  ((C6_request_counter_amended Nat envAllExn exampleConnected [] headersOld).2.2
    rfl (fun _ _ => trivial)).1

/-! ## Claim C7 -/

/-- C7 (counterexample to the claim as stated): through
`post_data_with_result` the request is prepared once before the retry
loop, so after a 401-triggered re-authentication the second attempt still
dispatches the `Bearer OLD` Authorization header even though the token
state current at that attempt is the fresh `NEW` token (whose headers
would be `headersNew`) — the three operations do not behave identically
here, since `get_data` rebuilds its headers per attempt. -/
theorem C7_counterexample :
    (post_data_with_result exampleConnected [] true envReauthThen200).2.2 =
      [headersOld, headersOld] ∧
    (post_data_with_result exampleConnected [] true envReauthThen200).2.1.token_data =
      some (mkToken "NEW") ∧
    dlookup headersOld "Authorization" = some "Bearer OLD" ∧
    _get_headers (some (mkToken "NEW")) [] = .ok headersNew ∧
    headersOld ≠ headersNew :=
  ⟨rfl, rfl, rfl, rfl, by decide⟩

/-- C7 (amended): every dispatched attempt carries the caller's headers
merged with an `Authorization: {token_type} {access_token}` entry built by
`_get_headers`, plus `Accept: application/json` unless the caller set
`Accept`. `get_data` rebuilds the request per attempt, so after a
401-triggered re-authentication the next dispatch carries headers built
from the fresh token; both POST operations prepare the request once
before the loop, so every retry re-sends the headers built from the token
state at call entry. -/
theorem C7_headers_amended (β : Type) (st : ClientState) (td td2 hdrs h1 h2 : SDict)
    (tt tok : String) (b0 body : β) (env : Nat → Attempt β) :
    (st.token_data = some td → td.isEmpty = false → (env 0).send = .resp 401 b0 →
      (env 0).conn401 0 = .resp 200 td2 → td2.isEmpty = false →
      (env 1).send = .resp 200 body →
      _get_headers (some td) [] = .ok h1 → _get_headers (some td2) [] = .ok h2 →
      (get_data st [] true env).2.2 = [h1, h2] ∧
      (post_data_with_result st [] true env).2.2 = [h1, h1] ∧
      (post_data_with_result st [] true env).2.1.token_data = some td2) ∧
    (dlookup td "token_type" = some tt → dlookup td "access_token" = some tok →
      td.isEmpty = false → tt ≠ "" → tok ≠ "" →
      ∃ r, _get_headers (some td) hdrs = .ok r ∧
        dlookup r "Authorization" = some (tt ++ " " ++ tok) ∧
        (dcontains hdrs "Accept" = false → dlookup r "Accept" = some "application/json") ∧
        (dcontains hdrs "Accept" = true → dlookup r "Accept" = dlookup hdrs "Accept")) := by
  constructor
  · intro htd htdne h0s hc htd2 h1s hmk1 hmk2
    refine ⟨?_, ?_, ?_⟩
    · rw [get_data_reauth_run st td td2 b0 body env h1 h2 htd htdne h0s hc htd2 h1s
        hmk1 hmk2]
    · rw [post_reauth_run st td td2 b0 body env h1 htd htdne h0s hc htd2 h1s hmk1]
    · rw [post_reauth_run st td td2 b0 body env h1 htd htdne h0s hc htd2 h1s hmk1]
  · intro htt htok htdne httne htokne
    unfold _get_headers
    dsimp only
    rw [if_neg (show ¬ List.isEmpty td = true from by rw [htdne]; simp)]
    rw [htt]
    dsimp only
    rw [htok]
    dsimp only
    have hif : (if tt ≠ "" ∧ tok ≠ "" then
        dictInsertS hdrs "Authorization" (tt ++ " " ++ tok) else hdrs) =
        dictInsertS hdrs "Authorization" (tt ++ " " ++ tok) :=
      if_pos (And.intro httne htokne)
    rw [hif]
    have hAA : ("Accept" : String) ≠ "Authorization" := by decide
    have hAA2 : ("Authorization" : String) ≠ "Accept" := by decide
    have hcacc : dcontains (dictInsertS hdrs "Authorization" (tt ++ " " ++ tok)) "Accept" =
        dcontains hdrs "Accept" :=
      dcontains_dictInsertS_of_ne hdrs "Authorization" (tt ++ " " ++ tok) "Accept" hAA
    rw [hcacc]
    rcases hacc : dcontains hdrs "Accept" with _ | _
    · simp only [Bool.false_eq_true, if_false]
      refine ⟨_, rfl, ?_, ?_, ?_⟩
      · rw [dlookup_dictInsertS_of_ne _ "Accept" "application/json" "Authorization" hAA2]
        exact dlookup_dictInsertS_self hdrs "Authorization" (tt ++ " " ++ tok)
      · intro _
        exact dlookup_dictInsertS_self _ "Accept" "application/json"
      · intro hcontra
        exact absurd hcontra (by simp)
    · simp only [if_true]
      refine ⟨_, rfl, ?_, ?_, ?_⟩
      · exact dlookup_dictInsertS_self hdrs "Authorization" (tt ++ " " ++ tok)
      · intro hcontra
        exact absurd hcontra (by simp)
      · intro _
        exact dlookup_dictInsertS_of_ne hdrs "Authorization" (tt ++ " " ++ tok) "Accept" hAA

/-- C7 (witness): in the canonical 401 re-authentication run, `get_data`
dispatches its second attempt with the headers of the fresh token. -/
theorem C7_headers_amended_witness :
    (get_data exampleConnected [] true envReauthThen200).2.2 =
      [headersOld, headersNew] :=
  ((C7_headers_amended Nat exampleConnected (mkToken "OLD") (mkToken "NEW") []
      headersOld headersNew "Bearer" "OLD" 0 9 envReauthThen200).1
    rfl rfl rfl rfl rfl rfl rfl rfl).1

/-! ## Claim C8 -/

/-- C8: `close()` is a no-op when the token data is `None` or an empty
dict (not authenticated); when authenticated with an access token
present, it sends a revoke body carrying `client_id`, the decoded
`client_secret` and the current access token, and — for every possible
transport outcome of the revoke request, failures included — it raises
nothing, sets the token data to `None`, and leaves the client
disconnected. -/
theorem C8_close_behavior (st : ClientState) (td : SDict) (tok : String)
    (env : Nat → SendOutcome Unit)
    (htd : st.token_data = some td) (hne : td.isEmpty = false)
    (htok : dlookup td "access_token" = some tok) :
    (close st env).1 = none ∧
    (close st env).2.1.token_data = none ∧
    is_connected (close st env).2.1 = false ∧
    (close st env).2.2 =
      some (RevokeRequest.mk st.client_id (_get_client_secret st) tok) ∧
    (∀ st2 : ClientState, st2.token_data = none → close st2 env = (none, st2, none)) ∧
    (∀ st2 : ClientState, st2.token_data = some [] → close st2 env = (none, st2, none)) := by
  have hmain : close st env =
      (none,
       { (post_data_without_result st
           [("Content-Type", "application/x-www-form-urlencoded")] false
           (fun i => { connTop := noConnectEnv, send := env i,
                       conn401 := noConnectEnv })).2.1 with token_data := none },
       some (RevokeRequest.mk st.client_id (_get_client_secret st) tok)) := by
    unfold close
    rw [htd]
    dsimp only
    rw [if_neg (show ¬ List.isEmpty td = true from by rw [hne]; simp)]
    rw [htok]
  refine ⟨by rw [hmain], by rw [hmain], ?_, by rw [hmain], ?_, ?_⟩
  · rw [hmain]
    rfl
  · intro st2 h2
    unfold close
    rw [h2]
  · intro st2 h2
    unfold close
    rw [h2]
    dsimp only
    rw [if_pos (show List.isEmpty ([] : SDict) = true from rfl)]

/-- C8 (witness): closing the connected example client while every revoke
send raises still clears the token, reports no error, and carried the
decoded secret and current token in the revoke body. -/
theorem C8_close_behavior_witness :
    (close exampleConnected envRevokeFailing).1 = none ∧
    (close exampleConnected envRevokeFailing).2.1.token_data = none ∧
    (close exampleConnected envRevokeFailing).2.2 =
      some (RevokeRequest.mk "client-1" [1, 2, 3] "OLD") := by
  have h := C8_close_behavior exampleConnected (mkToken "OLD") "OLD" envRevokeFailing
    rfl rfl rfl
  exact ⟨h.1, h.2.1, by rw [h.2.2.2.1]; rfl⟩

/-! ## Base64 round-trip -/

theorem b64decode_b64encode : ∀ (bs : List Nat), (∀ b ∈ bs, b < 256) →
    b64decode (b64encode bs) = bs
  | [] => fun _ => rfl
  | [a] => fun h => by
    have ha : a < 256 := h a (by simp)
    show b64decode [a / 4, a % 4 * 16, 64, 64] = [a]
    rw [b64decode]
    rw [if_pos rfl]
    have : a / 4 * 4 + a % 4 * 16 / 16 = a := by omega
    rw [this]
  | [a, b] => fun h => by
    have ha : a < 256 := h a (by simp)
    have hb : b < 256 := h b (by simp)
    show b64decode [a / 4, a % 4 * 16 + b / 16, b % 16 * 4, 64] = [a, b]
    rw [b64decode]
    rw [if_neg (by omega : ¬ b % 16 * 4 = 64)]
    rw [if_pos rfl]
    have h1 : a / 4 * 4 + (a % 4 * 16 + b / 16) / 16 = a := by omega
    have h2 : (a % 4 * 16 + b / 16) % 16 * 16 + b % 16 * 4 / 4 = b := by omega
    rw [h1, h2]
  | a :: b :: c :: rest => fun h => by
    have ha : a < 256 := h a (by simp)
    have hb : b < 256 := h b (by simp)
    have hc : c < 256 := h c (by simp)
    have ih := b64decode_b64encode rest (fun x hx => h x (by simp [hx]))
    show b64decode (a / 4 :: (a % 4 * 16 + b / 16) :: (b % 16 * 4 + c / 64) :: c % 64 ::
      b64encode rest) = a :: b :: c :: rest
    rw [b64decode]
    rw [if_neg (by omega : ¬ b % 16 * 4 + c / 64 = 64)]
    rw [if_neg (by omega : ¬ c % 64 = 64)]
    have h1 : a / 4 * 4 + (a % 4 * 16 + b / 16) / 16 = a := by omega
    have h2 : (a % 4 * 16 + b / 16) % 16 * 16 + (b % 16 * 4 + c / 64) / 4 = b := by omega
    have h3 : (b % 16 * 4 + c / 64) % 4 * 64 + c % 64 = c := by omega
    rw [h1, h2, h3, ih]

/-! ## Claim C9 -/

/-- C9: the client secret is stored base64-encoded at construction and
`_get_client_secret` decodes the stored value back to exactly the
original byte sequence — an encode-then-decode round-trip identity for
every valid (byte-valued) secret. -/
theorem C9_secret_roundtrip (st : ClientState) (secret : List Nat)
    (hbytes : ∀ b ∈ secret, b < 256)
    (hst : st.client_secret = storeClientSecret secret) :
    _get_client_secret st = secret := by
  unfold _get_client_secret storeClientSecret at *
  rw [hst]
  exact b64decode_b64encode secret hbytes

/-- C9 (witness): the example client's stored secret decodes back to the
original bytes. -/
theorem C9_secret_roundtrip_witness :
    _get_client_secret exampleConnected = [1, 2, 3] :=
  C9_secret_roundtrip exampleConnected [1, 2, 3] (by decide) rfl

/-! ## Claim C3 -/

theorem prmRegexMatches_iff (p : List Char) :
    prmRegexMatches p = true ↔
      ∃ d rest, p = d ++ rest ∧ d.length = 14 ∧ ∀ c ∈ d, isDigitChar c = true := by
  unfold prmRegexMatches
  rw [Bool.and_eq_true, decide_eq_true_eq, List.all_eq_true]
  constructor
  · rintro ⟨hlen, hdig⟩
    refine ⟨p.take 14, p.drop 14, (List.take_append_drop 14 p).symm, ?_, hdig⟩
    rw [List.length_take]
    omega
  · rintro ⟨d, rest, rfl, hlen, hdig⟩
    have htake : (d ++ rest).take 14 = d := by
      rw [← hlen]
      exact List.take_left d rest
    constructor
    · rw [List.length_append]
      omega
    · rw [htake]
      exact hdig

/-- C3 (counterexample to the claim as stated): `re.match("\d{14}", prm)`
is not anchored at the end, so a 15-digit PRM — which is not a 14-digit
numeric string — passes validation and construction succeeds where the
claim requires an `InvalidPrm` error. -/
theorem C3_counterexample :
    initChecks (some "123456789012345".toList) none (some "id".toList)
        (some "secret".toList) (some "http://localhost".toList) = .ok () ∧
      "123456789012345".toList.length = 15 :=
  ⟨rfl, by decide⟩

/-- C3 (amended): construction performs no network I/O and succeeds
exactly for inputs meeting the checks the code actually performs — at
least one PRM present, every present PRM *starting with* 14 digits
(longer strings with a 14-digit prefix are accepted), a present redirect
URI matching `^(http|https):.*$`, and present client id and secret of
length 1 to 128; the first violated check, probed in source order, raises
the corresponding error. -/
theorem C3_construction_amended (cp pp cid cs uri : Option (List Char)) :
    ((cp ≠ none ∨ pp ≠ none) →
      (∀ p, cp = some p → prmRegexMatches p = true) →
      (∀ p, pp = some p → prmRegexMatches p = true) →
      (∀ u, uri = some u → urlRegexMatches u = true) → uri ≠ none →
      (∀ c, cid = some c → 1 ≤ c.length ∧ c.length ≤ 128) → cid ≠ none →
      (∀ c, cs = some c → 1 ≤ c.length ∧ c.length ≤ 128) → cs ≠ none →
      initChecks cp pp cid cs uri = .ok ()) ∧
    (cp = none → pp = none → initChecks cp pp cid cs uri = .error .invalidPrm) ∧
    (∀ p, cp = some p → prmRegexMatches p = false →
      initChecks cp pp cid cs uri = .error .invalidPrm) ∧
    (∀ p, pp = some p → prmRegexMatches p = false →
      initChecks cp pp cid cs uri = .error .invalidPrm) ∧
    ((cp ≠ none ∨ pp ≠ none) →
      (∀ p, cp = some p → prmRegexMatches p = true) →
      (∀ p, pp = some p → prmRegexMatches p = true) →
      (uri = none ∨ ∃ u, uri = some u ∧ urlRegexMatches u = false) →
      initChecks cp pp cid cs uri = .error .invalidUrl) ∧
    ((cp ≠ none ∨ pp ≠ none) →
      (∀ p, cp = some p → prmRegexMatches p = true) →
      (∀ p, pp = some p → prmRegexMatches p = true) →
      (∀ u, uri = some u → urlRegexMatches u = true) → uri ≠ none →
      (cid = none ∨ ∃ c, cid = some c ∧ (c.length = 0 ∨ 128 < c.length)) →
      initChecks cp pp cid cs uri = .error .invalidClientId) ∧
    ((cp ≠ none ∨ pp ≠ none) →
      (∀ p, cp = some p → prmRegexMatches p = true) →
      (∀ p, pp = some p → prmRegexMatches p = true) →
      (∀ u, uri = some u → urlRegexMatches u = true) → uri ≠ none →
      (∀ c, cid = some c → 1 ≤ c.length ∧ c.length ≤ 128) → cid ≠ none →
      (cs = none ∨ ∃ c, cs = some c ∧ (c.length = 0 ∨ 128 < c.length)) →
      initChecks cp pp cid cs uri = .error .invalidClientSecret) := by
  have hmatchcp : ∀ (q : Option (List Char)),
      (∀ p, q = some p → prmRegexMatches p = true) →
      (match q with | some p => !prmRegexMatches p | none => false) = false := by
    intro q hq
    rcases q with _ | p
    · rfl
    · dsimp only
      rw [hq p rfl]
      rfl
  refine ⟨?_, ?_, ?_, ?_, ?_, ?_, ?_⟩
  · intro hprm hcp hpp hurl hun hid hin hcs2 hcn
    obtain ⟨u, hu⟩ := Option.ne_none_iff_exists'.mp hun
    obtain ⟨c, hc⟩ := Option.ne_none_iff_exists'.mp hin
    obtain ⟨s2, hs2⟩ := Option.ne_none_iff_exists'.mp hcn
    have hc1 : (cp.isNone && pp.isNone) = false := by
      rcases hprm with h | h
      · rcases cp with _ | p
        · exact absurd rfl h
        · rfl
      · rcases pp with _ | p
        · exact absurd rfl h
        · rcases cp with _ | _ <;> rfl
    have hcid : (decide (c.length = 0) || decide (128 < c.length)) = false := by
      have := hid c hc
      simp only [Bool.or_eq_false_iff, decide_eq_false_iff_not]
      omega
    have hcss : (decide (s2.length = 0) || decide (128 < s2.length)) = false := by
      have := hcs2 s2 hs2
      simp only [Bool.or_eq_false_iff, decide_eq_false_iff_not]
      omega
    rw [initChecks.eq_def, if_neg (by rw [hc1]; simp)]
    rw [if_neg (by rw [hmatchcp cp hcp]; simp)]
    rw [if_neg (by rw [hmatchcp pp hpp]; simp)]
    rw [if_neg (by rw [hu]; simpa using hurl u hu)]
    rw [if_neg (by rw [hc]; simpa using hcid)]
    rw [if_neg (by rw [hs2]; simpa using hcss)]
  · intro h1 h2
    rw [initChecks.eq_def, if_pos (by rw [h1, h2]; rfl)]
  · intro p hp hbad
    subst hp
    rw [initChecks.eq_def]
    rw [if_neg (by simp)]
    rw [if_pos (by dsimp only; rw [hbad]; rfl)]
  · intro p hp hbad
    subst hp
    rcases cp with _ | q
    · rw [initChecks.eq_def]
      rw [if_neg (by simp)]
      rw [if_neg (by simp)]
      rw [if_pos (by dsimp only; rw [hbad]; rfl)]
    · rcases hq : prmRegexMatches q with _ | _
      · rw [initChecks.eq_def]
        rw [if_neg (by simp)]
        rw [if_pos (by dsimp only; rw [hq]; rfl)]
      · rw [initChecks.eq_def]
        rw [if_neg (by simp)]
        rw [if_neg (by dsimp only; rw [hq]; simp)]
        rw [if_pos (by dsimp only; rw [hbad]; rfl)]
  · intro hprm hcp hpp hbad
    have hc1 : (cp.isNone && pp.isNone) = false := by
      rcases hprm with h | h
      · rcases cp with _ | p
        · exact absurd rfl h
        · rfl
      · rcases pp with _ | p
        · exact absurd rfl h
        · rcases cp with _ | _ <;> rfl
    rw [initChecks.eq_def, if_neg (by rw [hc1]; simp)]
    rw [if_neg (by rw [hmatchcp cp hcp]; simp)]
    rw [if_neg (by rw [hmatchcp pp hpp]; simp)]
    rcases hbad with h | ⟨u, hu, hbadu⟩
    · rw [if_pos (by rw [h])]
    · rw [if_pos (by rw [hu]; dsimp only; rw [hbadu]; rfl)]
  · intro hprm hcp hpp hurl hun hbad
    obtain ⟨u, hu⟩ := Option.ne_none_iff_exists'.mp hun
    have hc1 : (cp.isNone && pp.isNone) = false := by
      rcases hprm with h | h
      · rcases cp with _ | p
        · exact absurd rfl h
        · rfl
      · rcases pp with _ | p
        · exact absurd rfl h
        · rcases cp with _ | _ <;> rfl
    rw [initChecks.eq_def, if_neg (by rw [hc1]; simp)]
    rw [if_neg (by rw [hmatchcp cp hcp]; simp)]
    rw [if_neg (by rw [hmatchcp pp hpp]; simp)]
    rw [if_neg (by rw [hu]; simpa using hurl u hu)]
    rcases hbad with h | ⟨c, hc, hbadc⟩
    · rw [if_pos (by rw [h])]
    · rw [if_pos (by rw [hc]; simpa using hbadc)]
  · intro hprm hcp hpp hurl hun hid hin hbad
    obtain ⟨u, hu⟩ := Option.ne_none_iff_exists'.mp hun
    obtain ⟨c, hc⟩ := Option.ne_none_iff_exists'.mp hin
    have hc1 : (cp.isNone && pp.isNone) = false := by
      rcases hprm with h | h
      · rcases cp with _ | p
        · exact absurd rfl h
        · rfl
      · rcases pp with _ | p
        · exact absurd rfl h
        · rcases cp with _ | _ <;> rfl
    have hcid : (decide (c.length = 0) || decide (128 < c.length)) = false := by
      have := hid c hc
      simp only [Bool.or_eq_false_iff, decide_eq_false_iff_not]
      omega
    rw [initChecks.eq_def, if_neg (by rw [hc1]; simp)]
    rw [if_neg (by rw [hmatchcp cp hcp]; simp)]
    rw [if_neg (by rw [hmatchcp pp hpp]; simp)]
    rw [if_neg (by rw [hu]; simpa using hurl u hu)]
    rw [if_neg (by rw [hc]; simpa using hcid)]
    rcases hbad with h | ⟨s2, hs2, hbads⟩
    · rw [if_pos (by rw [h])]
    · rw [if_pos (by rw [hs2]; simpa using hbads)]

/-- C3 (witness): a valid 14-digit consumption PRM with a well-formed
redirect URI, client id and secret constructs successfully. -/
theorem C3_construction_amended_witness :
    initChecks (some "12345678901234".toList) none (some "id".toList)
      (some "secret".toList) (some "http://localhost".toList) = .ok () :=
  (C3_construction_amended (some "12345678901234".toList) none (some "id".toList)
      (some "secret".toList) (some "http://localhost".toList)).1
    (Or.inl (by simp))
    (fun p hp => by cases hp; decide)
    (fun p hp => by cases hp)
    (fun u hu => by cases hu; decide)
    (by simp)
    (fun c hc => by cases hc; decide)
    (by simp)
    (fun c hc => by cases hc; decide)
    (by simp)

end Enedis
